import Mathlib

/-!
Verification development for the "Realm of Warriors" character-creation and
advancement engine (`character_builder.py`, `levelup_manager.py`,
`validation.py`, `core/path.py`, `template_model.py`, `ROW_constants.py`).

The Python code is shallowly embedded: dataclasses become structures, Python
dicts become association lists over `String` keys (`alookup` / `aset` /
`aupdate` mirror `d[k]`, `d[k] = v` and in-place mutation of a value),
Python ints become `Int` (Python `//` is floor division, embedded as
`Int.fdiv`), and functions that can raise return `Option`.  Error-message
strings are kept close to the source but are abbreviated where Python
interpolates values or iterates over sets (whose order is unspecified);
no theorem below depends on message text.
-/

namespace RowChar

/-- Association-list lookup, modelling Python `d.get(k)` / `d[k]` on a dict. -/
def alookup {α : Type} : List (String × α) → String → Option α
  | [], _ => none
  | (k, v) :: rest, key => if k = key then some v else alookup rest key

/-- Membership test, modelling Python `k in d`. -/
def akey {α : Type} (m : List (String × α)) (k : String) : Bool :=
  (alookup m k).isSome

/-- Dict assignment `d[k] = v`: replace in place if the key exists, else append. -/
def aset {α : Type} : List (String × α) → String → α → List (String × α)
  | [], k, v => [(k, v)]
  | (k, v) :: rest, key, val =>
      if k = key then (k, val) :: rest else (k, v) :: aset rest key val

/-- In-place mutation of the value stored under an existing key (no-op if absent). -/
def aupdate {α : Type} (f : α → α) : List (String × α) → String → List (String × α)
  | [], _ => []
  | (k, v) :: rest, key =>
      if k = key then (k, f v) :: rest else (k, v) :: aupdate f rest key

/-- Python substring test `needle in haystack`, via `String.splitOn`:
the separator occurs iff splitting yields more than one chunk. -/
def strContains (haystack needle : String) : Bool :=
  (haystack.splitOn needle).length > 1

/-! ## ValidationResult (src/validation.py lines 28-52) -/

/-- Embedding of the `ValidationResult` dataclass. -/
structure ValidationResult where
  valid : Bool
  errors : List String
  warnings : List String
deriving DecidableEq

/-- The freshly constructed `ValidationResult(valid=True)`. -/
def ValidationResult.ok : ValidationResult := ⟨true, [], []⟩

/-- `add_error`: append the message and mark the result invalid. -/
def ValidationResult.add_error (r : ValidationResult) (msg : String) : ValidationResult :=
  { r with errors := r.errors ++ [msg], valid := false }

/-- `add_warning`: append the message; validity is unaffected. -/
def ValidationResult.add_warning (r : ValidationResult) (msg : String) : ValidationResult :=
  { r with warnings := r.warnings ++ [msg] }

/-- `merge`: fold another result into this one. -/
def ValidationResult.merge (r other : ValidationResult) : ValidationResult :=
  { valid := r.valid && other.valid,
    errors := r.errors ++ other.errors,
    warnings := r.warnings ++ other.warnings }

/-! ## Validation constants (src/validation.py lines 65-108) -/

/-- The six recognized ability names (`ABILITY_NAMES`). -/
def ABILITY_NAMES : List String :=
  ["Might", "Agility", "Endurance", "Intellect", "Wisdom", "Charisma"]

/-- `STANDARD_ARRAY` (7 numbers, choose any 6). -/
def STANDARD_ARRAY : List Int := [15, 14, 13, 12, 11, 10, 8]

/-- `POINT_BUY_COSTS`, as an association table over score values. -/
def POINT_BUY_COSTS : List (Int × Int) :=
  [(8, 0), (9, 1), (10, 2), (11, 3), (12, 4), (13, 5), (14, 7), (15, 9), (16, 11)]

def POINT_BUY_TOTAL : Int := 30

/-- The `SKILLS` constant of the validator. -/
def SKILLS : List String :=
  ["Athletics",
   "Acrobatics", "Sleight of Hand", "Stealth",
   "Arcana", "History", "Investigation", "Nature", "Religion",
   "Animal Handling", "Insight", "Medicine", "Perception", "Survival", "Taming",
   "Deception", "Intimidation", "Performance", "Persuasion"]

/-- The `LANGUAGES` constant of the validator. -/
def LANGUAGES : List String :=
  ["Common", "Elvish", "Dwarvish", "Orcish", "Goblin", "Halffolk",
   "Draconic", "Celestial", "Infernal", "Sylvan", "Aquan",
   "Tauric", "Simarru", "Velkarran",
   "Ancient Dwarvish"]

/-! ## Character data model (src/template_model.py) -/

/-- Embedding of `AbilityScore`. -/
structure AbilityScore where
  mod : Int := 0
  saving_throw : Int := 0
  total : Int := 10
  roll : Int := 10
  race : Int := 0
  misc : Int := 0
deriving DecidableEq

/-- Embedding of `SkillEntry`. -/
structure SkillEntry where
  trained : Bool := false
  mod : Int := 0
  rank : Int := 0
  misc : Int := 0
  total : Int := 0
deriving DecidableEq

/-- The view of a character talent entry used by the level-up manager:
both the loaded `Talent` objects and the plain dicts appended by
`_apply_talent_choice` expose `name`, `rank`, a path id and display text. -/
structure TalentEntry where
  name : String
  rank : Int
  path : String := ""
  text : String := ""
deriving DecidableEq

/-- Embedding of `Feature` (name/text records in `character.features`). -/
structure Feature where
  name : String
  text : String
deriving DecidableEq

/-- Embedding of `Health`. -/
structure Health where
  max : Int := 0
  current : Int := 0
  wounds : Int := 0
deriving DecidableEq

/-- Embedding of `Resource` (used for life points). -/
structure Resource where
  max : Int := 0
  current : Int := 0
deriving DecidableEq

/-- Embedding of `Defense`.  `shield` and `total` are `str | int` in the
source; `some n` models an `int`, `none` models the non-`int` default `""`. -/
structure Defense where
  base : Int := 9
  agility : Int := 0
  shield : Option Int := none
  misc : Int := 0
  total : Option Int := none
deriving DecidableEq

/-- Embedding of `PassiveStat`. -/
structure PassiveStat where
  base : Int := 10
  skill : Int := 0
  misc : Int := 0
  total : Int := 10
deriving DecidableEq

/-- Embedding of `AttackMod`. -/
structure AttackMod where
  attr : Int := 0
  misc : Int := 0
  total : Int := 0
deriving DecidableEq

/-- The `primary_path` field of `CharacterTemplate` is `Path | str | None`.
`pstr` models a plain string, `penum` a `ROW_constants.Path` enum member
(which is not a `str` subclass, so it never compares equal to a string). -/
inductive PrimaryPathVal where
  | pstr (s : String)
  | penum (value : String)
deriving DecidableEq

/-- Embedding of the `CharacterTemplate` aggregate (the fields read or
written by the builder and the level-up manager). -/
structure Character where
  level : Int := 1
  ability_scores : List (String × AbilityScore) := []
  skills : List (String × SkillEntry) := []
  languages : List String := []
  proficiencies : List String := []
  talents : List TalentEntry := []
  features : List Feature := []
  health : Health := {}
  primary_path : Option PrimaryPathVal := none
  attack_mods_melee : AttackMod := {}
  attack_mods_ranged : AttackMod := {}
  defense : Defense := {}
  initiative : Int := 0
  life_points : Resource := {}
  passive_perception : PassiveStat := {}
  passive_insight : PassiveStat := {}
  personality_traits : String := ""
  personality_ideal : String := ""
  personality_bond : String := ""
  personality_flaw : String := ""
  alignment_mod : Int := 0
  reputation_mod : Int := 0
deriving DecidableEq

/-- Recompute `total`, `mod` and `saving_throw` of one ability score from its
components, exactly as the recalculation loops do:
`total = roll + race + misc`, `mod = (total - 10) // 2` (Python floor
division), `saving_throw = mod`. -/
def recalcAbility (s : AbilityScore) : AbilityScore :=
  let total := s.roll + s.race + s.misc
  { s with
    total := total,
    mod := Int.fdiv (total - 10) 2,
    saving_throw := Int.fdiv (total - 10) 2 }

/-! ## CharacterValidator (src/validation.py) -/

/-- The `prerequisites` dict stored per path id by the validator
(`validate_path` reads these keys with `dict.get`, hence the `Option`s). -/
structure PathPrereqData where
  primary_attribute : Option String := none
  primary_minimum : Option Int := none
  secondary_attributes : Option (List String) := none
  secondary_minimum : Option Int := none
deriving DecidableEq

/-- Embedding of the `CharacterValidator` state loaded by `_load_valid_ids`. -/
structure CharacterValidator where
  valid_race_ids : List String := []
  valid_ancestry_ids : List String := []
  valid_profession_ids : List String := []
  valid_path_ids : List String := []
  valid_background_ids : List String := []
  valid_talent_ids : List String := []
  talent_max_ranks : List (String × Int) := []
  path_prerequisites : List (String × PathPrereqData) := []
deriving DecidableEq

/-- Embedding of `CharacterValidator.validate_skill`.  The "did you mean"
suggestion list iterates a Python set, so its message is abbreviated. -/
def CharacterValidator.validate_skill (skill_name : String) : ValidationResult :=
  let result := ValidationResult.ok
  if skill_name = "" then
    result.add_error "Skill name is required"
  else if skill_name ∉ SKILLS then
    let r := result.add_error ("Unknown skill: " ++ skill_name)
    let similar := SKILLS.filter (fun s => strContains s.toLower skill_name.toLower)
    if similar ≠ [] then r.add_warning ("Did you mean: " ++ String.intercalate ", " similar ++ "?")
    else r
  else result

/-- Embedding of `CharacterValidator.validate_language`. -/
def CharacterValidator.validate_language (language : String) : ValidationResult :=
  let result := ValidationResult.ok
  if language = "" then
    result.add_error "Language name is required"
  else if language ∉ LANGUAGES then
    result.add_warning ("Unknown language: " ++ language ++ " (may be valid)")
  else result

/-- Embedding of `CharacterValidator.validate_talent_choice`
(src/validation.py lines 541-574).  Note: the only rank-progression check
is `new_rank <= current_rank`; nothing rejects a rank that skips ahead. -/
def CharacterValidator.validate_talent_choice (V : CharacterValidator)
    (talent_id : String) (new_rank : Int) (current_rank : Int)
    (points_spent : Option Int) : ValidationResult :=
  let result := ValidationResult.ok
  if talent_id = "" then
    result.add_error "Talent ID is required"
  else
    let r1 := if talent_id ∉ V.valid_talent_ids then
        result.add_warning ("Unknown talent: " ++ talent_id ++ " (may be valid)")
      else result
    let r2 := if new_rank ≤ current_rank then
        r1.add_error ("New rank (" ++ toString new_rank ++ ") must be higher than current (" ++
          toString current_rank ++ ")")
      else r1
    let r3 := if new_rank < 1 then
        r2.add_error ("Rank must be at least 1 (got " ++ toString new_rank ++ ")")
      else r2
    let max_rank := (alookup V.talent_max_ranks talent_id).getD 10
    let r4 := if new_rank > max_rank then
        r3.add_error ("Talent " ++ talent_id ++ " max rank is " ++ toString max_rank ++
          " (got " ++ toString new_rank ++ ")")
      else r3
    match points_spent with
    | some pts =>
        if pts ≠ new_rank then
          r4.add_warning ("Talent rank " ++ toString new_rank ++ " typically costs " ++
            toString new_rank ++ " TP (spent " ++ toString pts ++ ")")
        else r4
    | none => r4

/-- One element of the `talent_choices` payload handed to the validator
(a dict built by `_validate_level_up_inputs`, read back with `dict.get`). -/
structure TalentPayload where
  talent_id : String
  new_rank : Int := 0
  current_rank : Int := 0
  points_spent : Option Int := none
  path_id : String := ""
  is_primary_path : Option Bool := none
deriving DecidableEq

/-- `choice.get("points_spent", choice.get("new_rank", 0))`. -/
def TalentPayload.points (c : TalentPayload) : Int :=
  c.points_spent.getD c.new_rank

/-- The `is_primary` test inside `validate_talent_points_allocation`. -/
def TalentPayload.isPrimary (c : TalentPayload) (primary_path_id : String) : Bool :=
  c.is_primary_path = some true || c.path_id = "primary" ||
    (primary_path_id ≠ "" && c.path_id = primary_path_id)

/-- Embedding of `CharacterValidator.validate_talent_points_allocation`
(src/validation.py lines 576-610). -/
def CharacterValidator.validate_talent_points_allocation
    (choices : List TalentPayload) (available_tp : Int)
    (min_primary_path : Int) (primary_path_id : String) : ValidationResult :=
  let result := ValidationResult.ok
  let total_spent := (choices.map TalentPayload.points).sum
  let primary_spent :=
    ((choices.filter (fun c => c.isPrimary primary_path_id)).map TalentPayload.points).sum
  let r1 := if total_spent > available_tp then
      result.add_error ("Spent " ++ toString total_spent ++ " TP but only have " ++
        toString available_tp)
    else result
  if primary_spent < min_primary_path then
    r1.add_error ("Must spend at least " ++ toString min_primary_path ++
      " TP in primary path (spent " ++ toString primary_spent ++ ")")
  else r1

/-- Embedding of `CharacterValidator.validate_advancement_choice`
(src/validation.py lines 616-664). -/
def CharacterValidator.validate_advancement_choice
    (choice_type : String) (target : String) (points_spent : Int)
    (trained_skills : List String) (known_languages : List String)
    (known_proficiencies : List String) : ValidationResult :=
  let result := ValidationResult.ok
  if choice_type ∉ ["skill_rank", "train_skill", "proficiency", "language", "inherit_gold"] then
    result.add_error ("Unknown advancement type: " ++ choice_type)
  else if choice_type = "skill_rank" then
    let r := if target ∉ trained_skills then
        result.add_error ("Cannot increase rank of untrained skill: " ++ target)
      else result
    if points_spent ≠ 1 then
      r.add_error ("Skill rank costs 1 AP (spent " ++ toString points_spent ++ ")")
    else r
  else if choice_type = "train_skill" then
    let r := if target ∈ trained_skills then
        result.add_error ("Already trained in " ++ target)
      else result
    let r := r.merge (CharacterValidator.validate_skill target)
    if points_spent ≠ 4 then
      r.add_error ("Training skill costs 4 AP (spent " ++ toString points_spent ++ ")")
    else r
  else if choice_type = "proficiency" then
    let r := if target ∈ known_proficiencies then
        result.add_warning ("Already have proficiency: " ++ target)
      else result
    if points_spent ≠ 10 then
      r.add_error ("Proficiency costs 10 AP (spent " ++ toString points_spent ++ ")")
    else r
  else if choice_type = "language" then
    let r := if target ∈ known_languages then
        result.add_error ("Already know language: " ++ target)
      else result
    let r := r.merge (CharacterValidator.validate_language target)
    if points_spent ≠ 10 then
      r.add_error ("Language costs 10 AP (spent " ++ toString points_spent ++ ")")
    else r
  else result

/-- Name check appended at the end of `validate_ability_increase` (one error
per unrecognized ability name, in dict order). -/
def checkIncreaseNames (r : ValidationResult) : List (String × Int) → ValidationResult
  | [] => r
  | (a, _) :: rest =>
      checkIncreaseNames
        (if a ∈ ABILITY_NAMES then r else r.add_error ("Unknown ability: " ++ a)) rest

/-- Embedding of `CharacterValidator.validate_ability_increase`
(src/validation.py lines 670-710).  `increases` models the Python dict as an
association list with (necessarily) distinct keys. -/
def validate_ability_increase (increases : List (String × Int)) (level : Int) :
    ValidationResult :=
  let result := ValidationResult.ok
  if level ∉ ([4, 8, 12, 16] : List Int) then
    if increases ≠ [] then
      result.add_error ("Level " ++ toString level ++ " does not grant ability increase")
    else result
  else if increases = [] then
    result.add_error ("Level " ++ toString level ++ " requires an ability increase choice")
  else
    let total := (increases.map Prod.snd).sum
    let count := increases.length
    let r1 := if total ≠ 2 then
        result.add_error ("Ability increase must total +2 (got " ++ toString total ++ ")")
      else result
    let r2 :=
      if count = 1 then
        if (increases.map Prod.snd).headI ≠ 2 then
          r1.add_error "Single ability increase must be +2"
        else r1
      else if count = 2 then
        if ¬ increases.all (fun p => p.2 = 1) then
          r1.add_error "Two ability increases must each be +1"
        else r1
      else
        r1.add_error ("Can increase 1 or 2 abilities, not " ++ toString count)
    checkIncreaseNames r2 increases

/-- One element of the `advancement_choices` payload handed to
`validate_level_up` (a dict with `choice_type`, `target`, `points_spent`). -/
structure AdvPayload where
  choice_type : String
  target : String
  points_spent : Int
deriving DecidableEq

/-- Embedding of `CharacterValidator.validate_level_up`
(src/validation.py lines 774-817).  The parameters mirror the Python
signature; call sites pass the Python defaults explicitly. -/
def CharacterValidator.validate_level_up (V : CharacterValidator)
    (current_level target_level : Int)
    (talent_choices : List TalentPayload) (advancement_choices : List AdvPayload)
    (ability_increase : Option (List (String × Int)))
    (available_tp available_ap : Int)
    (min_primary_path_points : Int) (primary_path_id : String) : ValidationResult :=
  let result := ValidationResult.ok
  let r1 := if target_level ≤ current_level then
      result.add_error ("Target level (" ++ toString target_level ++ ") must exceed current (" ++
        toString current_level ++ ")")
    else result
  let r2 := if talent_choices ≠ [] then
      let r := r1.merge (CharacterValidator.validate_talent_points_allocation
        talent_choices available_tp min_primary_path_points primary_path_id)
      talent_choices.foldl
        (fun r c => r.merge (V.validate_talent_choice c.talent_id c.new_rank
          c.current_rank c.points_spent)) r
    else r1
  let r3 := if advancement_choices ≠ [] then
      let total_ap := (advancement_choices.map AdvPayload.points_spent).sum
      if total_ap > available_ap then
        r2.add_error ("Spent " ++ toString total_ap ++ " AP but only have " ++
          toString available_ap)
      else r2
    else r2
  match ability_increase with
  | some inc =>
      if inc ≠ [] then r3.merge (validate_ability_increase inc target_level) else r3
  | none => r3

/-! ## LevelUpManager (src/levelup_manager.py) -/

/-- The fields of `core.Path` read by the level-up manager. -/
structure PathData where
  id : String
  name : String
  talent_points_attribute : String := ""
  spellcasting : Bool := false
deriving DecidableEq

/-- Levels that grant ability score increases (`ABILITY_INCREASE_LEVELS`). -/
def ABILITY_INCREASE_LEVELS : List Int := [4, 8, 12, 16]

/-- Levels that grant extra attack (`EXTRA_ATTACK_LEVELS`). -/
def EXTRA_ATTACK_LEVELS : List Int := [3, 9]

/-- Embedding of the `LevelUpOptions` dataclass (the unused
`available_talents` field is omitted: the source never populates it). -/
structure LevelUpOptions where
  current_level : Int
  new_level : Int
  talent_points : Int
  min_primary_path_points : Int
  advancement_points : Int
  grants_ability_increase : Bool
  grants_extra_attack : Bool
  current_talents : List (String × Int) := []
  trained_skills : List String := []
  spellcrafting_points : Int := 0
  casting_points_increase : Int := 0
deriving DecidableEq

/-- Embedding of the `TalentChoice` dataclass. -/
structure TalentChoice where
  talent_id : String
  talent_name : String
  new_rank : Int
  points_spent : Int
  path_id : String
deriving DecidableEq

/-- Embedding of the `AdvancementChoice` dataclass. -/
structure AdvancementChoice where
  choice_type : String
  target : String
  points_spent : Int
deriving DecidableEq

/-- The `LevelUpManager` state used by the embedded operations. -/
structure LevelUpManager where
  character : Option Character := none
  paths : List (String × PathData) := []
  validator : CharacterValidator := {}
  last_validation : Option ValidationResult := none
deriving DecidableEq

/-- Python truthiness of `character.primary_path` (`if not path_name`):
`None` and the empty string are falsy, an enum member is truthy. -/
def primaryPathTruthy : Option PrimaryPathVal → Bool
  | none => false
  | some (.pstr s) => s ≠ ""
  | some (.penum _) => true

/-- `path.name == path_name`: a string only ever equals a string
(`ROW_constants.Path` is not a `str` subclass, so an enum member never
compares equal to a path name). -/
def pathNameMatches (pp : PrimaryPathVal) (nm : String) : Bool :=
  match pp with
  | .pstr s => nm = s
  | .penum _ => false

/-- The `for path_id, path in self.paths.items()` search in
`get_primary_path` (first match in insertion order). -/
def findPathByName (pp : PrimaryPathVal) : List (String × PathData) → Option PathData
  | [] => none
  | (_, p) :: rest => if pathNameMatches pp p.name then some p else findPathByName pp rest

/-- Embedding of `LevelUpManager.get_primary_path` (lines 311-325). -/
def get_primary_path (mgr : LevelUpManager) : Option PathData :=
  match mgr.character with
  | none => none
  | some c =>
      if primaryPathTruthy c.primary_path then
        match c.primary_path with
        | some pp => findPathByName pp mgr.paths
        | none => none
      else none

/-- Embedding of `LevelUpManager.calculate_talent_points` (lines 327-346):
TP = primary path's talent-points attribute modifier + 5, defaulting to 5. -/
def calculate_talent_points (mgr : LevelUpManager) : Int :=
  match mgr.character with
  | none => 0
  | some c =>
      match get_primary_path mgr with
      | none => 5
      | some path =>
          let attr_name := path.talent_points_attribute
          if attr_name ≠ "" then
            match alookup c.ability_scores attr_name with
            | some score => score.mod + 5
            | none => 5
          else 5

/-- Embedding of `LevelUpManager.calculate_advancement_points`
(lines 348-361): AP = Intellect modifier, minimum 2. -/
def calculate_advancement_points (mgr : LevelUpManager) : Int :=
  match mgr.character with
  | none => 2
  | some c =>
      match alookup c.ability_scores "Intellect" with
      | some score => max 2 score.mod
      | none => 2

/-- Embedding of `LevelUpManager.get_trained_skills`. -/
def get_trained_skills (mgr : LevelUpManager) : List String :=
  match mgr.character with
  | none => []
  | some c => (c.skills.filter (fun kv => kv.2.trained)).map Prod.fst

/-- Embedding of `LevelUpManager.get_level_up_options` (lines 370-434).
`none` models the `ValueError`s raised for a missing character or a
non-increasing target level; `target_level or (current + 1)` treats a
falsy (0 or absent) argument as "current + 1". -/
def get_level_up_options (mgr : LevelUpManager) (target_level : Option Int) :
    Option LevelUpOptions :=
  match mgr.character with
  | none => none
  | some c =>
      let current := c.level
      let target := match target_level with
        | some t => if t = 0 then current + 1 else t
        | none => current + 1
      if target ≤ current then none
      else
        let tp := calculate_talent_points mgr
        let ap := calculate_advancement_points mgr
        let min_primary := min 4 tp
        let grants_ability := target ∈ ABILITY_INCREASE_LEVELS
        let grants_extra_attack := target ∈ EXTRA_ATTACK_LEVELS
        let int_mod := match alookup c.ability_scores "Intellect" with
          | some s => s.mod
          | none => 0
        let sp_gain := match get_primary_path mgr with
          | some p => if p.spellcasting then int_mod + target else 0
          | none => 0
        let cp_gain := sp_gain
        let current_talents := c.talents.foldl (fun m t => aset m t.name t.rank) []
        some
          { current_level := current,
            new_level := target,
            talent_points := tp,
            min_primary_path_points := min_primary,
            advancement_points := ap,
            grants_ability_increase := grants_ability,
            grants_extra_attack := grants_extra_attack,
            current_talents := current_talents,
            trained_skills := get_trained_skills mgr,
            spellcrafting_points := sp_gain,
            casting_points_increase := cp_gain }

/-- Embedding of `LevelUpManager._validate_level_up_inputs` (lines 436-495).
Note that the call to `validator.validate_level_up` leaves
`min_primary_path_points` and `primary_path_id` at their Python defaults
(`0` and `""`) and passes `ability_increase=None`; the ability increase is
checked separately afterwards. -/
def validate_level_up_inputs (mgr : LevelUpManager) (options : LevelUpOptions)
    (talent_choices : List TalentChoice) (advancement_choices : List AdvancementChoice)
    (ability_increase : Option (List (String × Int))) : ValidationResult :=
  let ability_payload := ability_increase.getD []
  let current_talents := options.current_talents
  let talent_payload : List TalentPayload := talent_choices.map (fun choice =>
    { talent_id := choice.talent_id,
      new_rank := choice.new_rank,
      current_rank := (alookup current_talents choice.talent_name).getD 0,
      points_spent := some choice.points_spent,
      path_id := choice.path_id })
  let advancement_payload : List AdvPayload := advancement_choices.map (fun choice =>
    ⟨choice.choice_type, choice.target, choice.points_spent⟩)
  let result := mgr.validator.validate_level_up options.current_level options.new_level
    talent_payload advancement_payload none options.talent_points
    options.advancement_points 0 ""
  let result := result.merge (validate_ability_increase ability_payload options.new_level)
  let trained_skills := get_trained_skills mgr
  let known_languages := match mgr.character with
    | some c => c.languages
    | none => []
  let known_proficiencies := match mgr.character with
    | some c => c.proficiencies
    | none => []
  advancement_choices.foldl (fun r choice =>
    r.merge (CharacterValidator.validate_advancement_choice choice.choice_type choice.target
      choice.points_spent trained_skills known_languages known_proficiencies)) result

/-- The per-ability update of the ability-increase block of `level_up`
(lines 534-541): bump `misc`, then recompute total/mod/saving throw. -/
def applyAbilityBonus (s : AbilityScore) (bonus : Int) : AbilityScore :=
  let misc := s.misc + bonus
  let total := s.roll + s.race + misc
  { s with
    misc := misc,
    total := total,
    mod := Int.fdiv (total - 10) 2,
    saving_throw := Int.fdiv (total - 10) 2 }

/-- The ability-increase loop of `level_up`: each named ability present in
the score dict is updated in place. -/
def applyAbilityIncrease (c : Character) (increase : List (String × Int)) : Character :=
  increase.foldl (fun c p =>
    if akey c.ability_scores p.1 then
      { c with ability_scores := aupdate (fun s => applyAbilityBonus s p.2) c.ability_scores p.1 }
    else c) c

/-- Set the rank of the first talent entry with the given name. -/
def updateTalentRank : List TalentEntry → String → Int → List TalentEntry
  | [], _, _ => []
  | t :: rest, nm, rk =>
      if t.name = nm then { t with rank := rk } :: rest
      else t :: updateTalentRank rest nm rk

/-- Embedding of `LevelUpManager._apply_talent_choice` (lines 608-633). -/
def apply_talent_choice (c : Character) (choice : TalentChoice) : Character :=
  if c.talents.any (fun t => t.name = choice.talent_name) then
    { c with talents := updateTalentRank c.talents choice.talent_name choice.new_rank }
  else
    { c with talents := c.talents ++
        [{ name := choice.talent_name,
           rank := choice.new_rank,
           path := choice.path_id,
           text := choice.talent_name ++ " (Rank " ++ toString choice.new_rank ++ ")" }] }

/-- Embedding of `LevelUpManager._apply_advancement_choice` (lines 635-671). -/
def apply_advancement_choice (c : Character) (choice : AdvancementChoice) : Character :=
  if choice.choice_type = "skill_rank" then
    if akey c.skills choice.target then
      { c with skills := aupdate (fun e =>
          if e.trained then
            let rank := e.rank + 1
            { e with rank := rank, total := e.mod + rank + e.misc }
          else e) c.skills choice.target }
    else c
  else if choice.choice_type = "train_skill" then
    if akey c.skills choice.target then
      { c with skills := aupdate (fun e =>
          { e with trained := true, rank := 1, total := e.mod + 1 + e.misc }) c.skills choice.target }
    else c
  else if choice.choice_type = "proficiency" then
    if choice.target ∉ c.proficiencies then
      { c with proficiencies := c.proficiencies ++ [choice.target] }
    else c
  else if choice.choice_type = "language" then
    if choice.target ∉ c.languages then
      { c with languages := c.languages ++ [choice.target] }
    else c
  else c

/-- Embedding of `LevelUpManager._apply_hp_increase` (lines 673-688):
`hp_roll` defaults to the average 5; gain is `max(1, roll + END mod)`;
current HP is set to the new maximum. -/
def apply_hp_increase (c : Character) (hp_roll : Option Int) : Character :=
  let roll := hp_roll.getD 5
  let end_mod := match alookup c.ability_scores "Endurance" with
    | some s => s.mod
    | none => 0
  let hp_gain := max 1 (roll + end_mod)
  let new_max := c.health.max + hp_gain
  { c with health := { c.health with max := new_max, current := new_max } }

/-- Embedding of `LevelUpManager._recalculate_stats` (lines 690-727). -/
def recalculate_stats (c : Character) : Character :=
  let c := { c with ability_scores :=
      c.ability_scores.map (fun (kv : String × AbilityScore) => (kv.1, recalcAbility kv.2)) }
  let c := { c with skills := c.skills.map (fun (kv : String × SkillEntry) =>
      (kv.1, { kv.2 with total := kv.2.mod + kv.2.rank + kv.2.misc })) }
  let c := match alookup c.ability_scores "Might" with
    | some s => { c with attack_mods_melee := { c.attack_mods_melee with attr := s.mod } }
    | none => c
  let c := match alookup c.ability_scores "Agility" with
    | some s => { c with attack_mods_ranged := { c.attack_mods_ranged with attr := s.mod } }
    | none => c
  let c := { c with
    attack_mods_melee := { c.attack_mods_melee with
      total := c.attack_mods_melee.attr + c.attack_mods_melee.misc },
    attack_mods_ranged := { c.attack_mods_ranged with
      total := c.attack_mods_ranged.attr + c.attack_mods_ranged.misc } }
  let c := match alookup c.ability_scores "Agility" with
    | some s => { c with defense := { c.defense with agility := s.mod } }
    | none => c
  let shield := c.defense.shield.getD 0
  let c := { c with defense := { c.defense with
      total := some (c.defense.base + c.defense.agility + shield + c.defense.misc) } }
  let c := match alookup c.ability_scores "Agility" with
    | some s => { c with initiative := s.mod }
    | none => c
  match alookup c.ability_scores "Endurance" with
  | some s =>
      let mx := max 1 s.total
      { c with life_points := { max := mx, current := mx } }
  | none => c

/-- The Extra Attack feature dict appended at levels 3 and 9. -/
def extraAttackFeature (new_level : Int) : Feature :=
  { name := "Extra Attack (" ++ toString new_level ++ ")",
    text := "You can attack twice when you take the Attack action (gained at level " ++
      toString new_level ++ ")." }

/-- Python truthiness of the `ability_increase` dict argument. -/
def abilityIncreaseTruthy : Option (List (String × Int)) → Bool
  | none => false
  | some l => l ≠ []

/-- Embedding of `LevelUpManager.level_up` (lines 497-575).  The Python
`None` defaults of `talent_choices`/`advancement_choices` normalize to `[]`
(`talent_choices or []`), so they are taken as plain lists here.  The result
is `some (success, new manager state)`; `none` models an uncaught exception
(unreachable: the internal `get_level_up_options` call always succeeds when
a character is loaded).  The spellcrafting block of the source is a no-op
and is omitted.  `apply_level_up` is the application pipeline executed once
validation has passed (lines 530-573). -/
def apply_level_up (c : Character) (options : LevelUpOptions)
    (talent_choices : List TalentChoice) (advancement_choices : List AdvancementChoice)
    (ability_increase : Option (List (String × Int))) (hp_roll : Option Int) : Character :=
  let c := { c with level := options.new_level }
  let c :=
    if options.grants_ability_increase && abilityIncreaseTruthy ability_increase then
      applyAbilityIncrease c (ability_increase.getD [])
    else c
  let c := if talent_choices ≠ [] then
      talent_choices.foldl apply_talent_choice c
    else c
  let c := if advancement_choices ≠ [] then
      advancement_choices.foldl apply_advancement_choice c
    else c
  let c := apply_hp_increase c hp_roll
  let c := if options.grants_extra_attack then
      { c with features := c.features ++ [extraAttackFeature options.new_level] }
    else c
  recalculate_stats c

def level_up (mgr : LevelUpManager) (talent_choices : List TalentChoice)
    (advancement_choices : List AdvancementChoice)
    (ability_increase : Option (List (String × Int))) (hp_roll : Option Int) :
    Option (Bool × LevelUpManager) :=
  match mgr.character with
  | none => some (false, mgr)
  | some c =>
      match get_level_up_options mgr none with
      | none => none
      | some options =>
          let validation :=
            validate_level_up_inputs mgr options talent_choices advancement_choices
              ability_increase
          let mgr := { mgr with last_validation := some validation }
          if validation.valid = false then some (false, mgr)
          else
            let nc := apply_level_up c options talent_choices advancement_choices
              ability_increase hp_roll
            some (true, { mgr with character := some nc })

/-- The validation result `level_up` computes internally for a batch of
choices (`get_level_up_options` with the default target composed with
`_validate_level_up_inputs`); `none` when no character is loaded. -/
def level_up_validation (mgr : LevelUpManager) (talent_choices : List TalentChoice)
    (advancement_choices : List AdvancementChoice)
    (ability_increase : Option (List (String × Int))) : Option ValidationResult :=
  (get_level_up_options mgr none).map (fun options =>
    validate_level_up_inputs mgr options talent_choices advancement_choices ability_increase)

/-! ## CharacterBuilder (src/character_builder.py) -/

/-- Embedding of the `BuilderStep` enum. -/
inductive BuilderStep where
  | ABILITY_SCORES
  | RACE
  | ANCESTRY
  | PROFESSION
  | PATH
  | BACKGROUND
  | COMPLETE
deriving DecidableEq

/-- Embedding of the `PendingChoice` dataclass. -/
structure PendingChoice where
  choice_type : String
  count : Int
  options : List String
  source : String
deriving DecidableEq

/-- Embedding of `core.common.PersonalityEntry` (roll number, text, and the
morality/reputation deltas accumulated on selection). -/
structure PersonalityEntry where
  roll : Int
  text : String
  morality : Int := 0
  reputation : Int := 0
deriving DecidableEq

/-- Embedding of a background's personality tables. -/
structure PersonalityTables where
  traits : List PersonalityEntry := []
  ideals : List PersonalityEntry := []
  bonds : List PersonalityEntry := []
  flaws : List PersonalityEntry := []
deriving DecidableEq

/-- The fields of `core.Background` read by `resolve_choice`. -/
structure BackgroundData where
  name : String
  personality_tables : Option PersonalityTables := none
deriving DecidableEq

/-- The fields of `core.Profession` read by `recalculate_all`. -/
structure ProfessionData where
  name : String
  base_hp : Int
deriving DecidableEq

/-- The `CharacterBuilder` state used by the embedded operations (the
loaded catalogs and the other `chosen_*` fields are not read by them). -/
structure CharacterBuilder where
  character : Character := {}
  current_step : BuilderStep := BuilderStep.ABILITY_SCORES
  pending_choices : List PendingChoice := []
  chosen_profession : Option ProfessionData := none
  chosen_background : Option BackgroundData := none
deriving DecidableEq

/-- Embedding of `CharacterBuilder._recalculate_modifier`: recompute one
ability's total/mod/saving throw from its components (no-op if absent). -/
def recalculate_modifier (c : Character) (ability_name : String) : Character :=
  if akey c.ability_scores ability_name then
    { c with ability_scores := aupdate recalcAbility c.ability_scores ability_name }
  else c

/-- Embedding of `CharacterBuilder.set_ability_scores` (lines 137-155):
each recognized name stores its value as the base `roll` and recomputes
total/mod/saving throw; unrecognized names are skipped; the step always
advances to `RACE`.  The operation has no failure path.  `setScoreStep` is
one iteration of its `for name, value in scores.items()` loop. -/
def setScoreStep (ch : Character) (nv : String × Int) : Character :=
  if akey ch.ability_scores nv.1 then
    { ch with ability_scores :=
        aupdate (fun s => recalcAbility { s with roll := nv.2 }) ch.ability_scores nv.1 }
  else ch

def set_ability_scores (b : CharacterBuilder) (scores : List (String × Int)) :
    CharacterBuilder :=
  { b with
    character := scores.foldl setScoreStep b.character,
    current_step := BuilderStep.RACE }

/-- The matching predicate of `resolve_choice`: same `choice_type`, and the
same `source` when one is given. -/
def choiceMatches (choice_type : String) (source : Option String) (c : PendingChoice) : Bool :=
  c.choice_type = choice_type &&
    (match source with
     | none => true
     | some s => c.source = s)

/-- `list.remove(x)`: drop the first element equal to `x` (the Python call
raises if absent; every embedded call site removes a present element). -/
def eraseFirst : List PendingChoice → PendingChoice → List PendingChoice
  | [], _ => []
  | x :: rest, c => if x = c then rest else x :: eraseFirst rest c

/-- The full ability list `[a.value for a in Attribute]` (ROW_constants
declaration order). -/
def ALL_ABILITIES : List String :=
  ["Might", "Agility", "Endurance", "Wisdom", "Intellect", "Charisma"]

/-- Python `int(...)` on the text before the first `:` of a selection
(`int` tolerates surrounding whitespace; `none` models the `ValueError`). -/
def parseRollNum (sel : String) : Option Int :=
  ((sel.splitOn ":").headI.trim).toInt?

/-- Train one selected skill: set `trained`, grant rank 1 only when the
current rank is 0 (an existing rank is never reset or re-granted). -/
def trainSkillStep (sk : List (String × SkillEntry)) (name : String) :
    List (String × SkillEntry) :=
  if akey sk name then
    aupdate (fun e =>
      { e with trained := true, rank := if e.rank = 0 then 1 else e.rank }) sk name
  else sk

/-- Train the selected skills (the `"skill"` branch loop). -/
def trainSkills (skills : List (String × SkillEntry)) (selections : List String) :
    List (String × SkillEntry) :=
  selections.foldl trainSkillStep skills

/-- Append one selection unless already present (no duplicates created). -/
def addDistinctStep (l : List String) (x : String) : List String :=
  if x ∈ l then l else l ++ [x]

/-- Append each selection not already present. -/
def addDistinct (xs : List String) (selections : List String) : List String :=
  selections.foldl addDistinctStep xs

/-- Adjust `misc` and `total` of one selected ability by `delta`, then run
`_recalculate_modifier` on it (which recomputes the total from components). -/
def adjStep (delta : Int) (c : Character) (sel : String) : Character :=
  if akey c.ability_scores sel then
    let scores := aupdate
      (fun s => { s with misc := s.misc + delta, total := s.total + delta })
      c.ability_scores sel
    recalculate_modifier { c with ability_scores := scores } sel
  else c

/-- Adjust each selected ability by `delta` (the ability-adjustment loops). -/
def adjustAbilities (c : Character) (selections : List String) (delta : Int) : Character :=
  selections.foldl (adjStep delta) c

/-- Record a personality selection: store the entry text in the given slot
and accumulate its morality/reputation deltas. -/
def applyPersonalityEntry (c : Character) (slot : String) (e : PersonalityEntry) : Character :=
  let c :=
    if slot = "personality_trait" then { c with personality_traits := e.text }
    else if slot = "personality_ideal" then { c with personality_ideal := e.text }
    else if slot = "personality_bond" then { c with personality_bond := e.text }
    else { c with personality_flaw := e.text }
  { c with
    alignment_mod := c.alignment_mod + e.morality,
    reputation_mod := c.reputation_mod + e.reputation }

/-- The table matching the given personality choice type. -/
def tableFor (tables : PersonalityTables) (choice_type : String) : List PersonalityEntry :=
  if choice_type = "personality_trait" then tables.traits
  else if choice_type = "personality_ideal" then tables.ideals
  else if choice_type = "personality_bond" then tables.bonds
  else if choice_type = "personality_flaw" then tables.flaws
  else []

/-- The effect-application section of `resolve_choice` (the `if`/`elif`
chain on `choice_type`, lines 506-610): the resulting character and the
pending queue as it stands just before the final `remove` (only the
`human_ability_mode` branch appends to it).  `none` models an exception
raised inside a branch (missing selection or unparsable roll number). -/
def applyChoiceEffect (b : CharacterBuilder) (choice_type : String)
    (selections : List String) : Option (Character × List PendingChoice) :=
  if choice_type = "skill" then
    some ({ b.character with skills := trainSkills b.character.skills selections },
      b.pending_choices)
  else if choice_type = "language" then
    some ({ b.character with languages := addDistinct b.character.languages selections },
      b.pending_choices)
  else if choice_type = "tool" then
    some ({ b.character with
      proficiencies := addDistinct b.character.proficiencies selections },
      b.pending_choices)
  else if choice_type = "ability_bonus" then
    some (adjustAbilities b.character selections 1, b.pending_choices)
  else if choice_type = "human_ability_mode" then
    match selections with
    | [] => none
    | sel :: _ =>
        if strContains sel "+2" then
          some (b.character, b.pending_choices ++
            [{ choice_type := "ability_bonus_plus2", count := 1,
               options := ALL_ABILITIES, source := "Human Race - +2 Bonus" },
             { choice_type := "ability_penalty", count := 1,
               options := ALL_ABILITIES, source := "Human Race - -1 Penalty" }])
        else
          some (b.character, b.pending_choices ++
            [{ choice_type := "ability_bonus", count := 1,
               options := ALL_ABILITIES, source := "Human Race - +1 Bonus" }])
  else if choice_type = "ability_bonus_plus2" then
    some (adjustAbilities b.character selections 2, b.pending_choices)
  else if choice_type = "ability_penalty" then
    some (adjustAbilities b.character selections (-1), b.pending_choices)
  else if choice_type.startsWith "personality_" then
    match b.chosen_background with
    | none => some (b.character, b.pending_choices)
    | some bg =>
        match bg.personality_tables with
        | none => some (b.character, b.pending_choices)
        | some tables =>
            match selections with
            | [] => none
            | sel :: _ =>
                match parseRollNum sel with
                | none => none
                | some roll_num =>
                    match (tableFor tables choice_type).find?
                        (fun e => e.roll = roll_num) with
                    | some entry =>
                        some (applyPersonalityEntry b.character choice_type entry,
                          b.pending_choices)
                    | none => some (b.character, b.pending_choices)
  else
    some (b.character, b.pending_choices)

/-- Embedding of `CharacterBuilder.resolve_choice` (lines 479-613).
`none` models a raised `ValueError`/`IndexError`: no matching pending
choice, a wrong selection count, an invalid selection, or a failure inside
a branch of the effect section.  On success the matched choice is removed
from the queue (after the `human_ability_mode` branch has appended its
follow-up choices). -/
def resolve_choice (b : CharacterBuilder) (choice_type : String)
    (selections : List String) (source : Option String) : Option CharacterBuilder :=
  match b.pending_choices.find? (choiceMatches choice_type source) with
  | none => none
  | some choice =>
      if (selections.length : Int) ≠ choice.count then none
      else if selections.any (fun sel => sel ∉ choice.options) then none
      else
        match applyChoiceEffect b choice_type selections with
        | none => none
        | some (ch, pending) =>
            some { b with character := ch, pending_choices := eraseFirst pending choice }

/-- The skill-to-linked-attribute mapping of `ROW_constants.Skill.attribute`
(keyed by the enum values, including their misspellings). -/
def skillAttribute : String → Option String
  | "Acrobatics" => some "Agility"
  | "Slight of Hand" => some "Agility"
  | "Stealth" => some "Agility"
  | "Athletics" => some "Might"
  | "Appraisal" => some "Intellect"
  | "Arcana" => some "Intellect"
  | "Crafting" => some "Intellect"
  | "History" => some "Intellect"
  | "Insight" => some "Intellect"
  | "Investigation" => some "Intellect"
  | "Medicine" => some "Intellect"
  | "Nature" => some "Intellect"
  | "Religion" => some "Intellect"
  | "Streetwise" => some "Intellect"
  | "Animal Handling" => some "Wisdom"
  | "Perception" => some "Wisdom"
  | "Survival" => some "Wisdom"
  | "Taming" => some "Wisdom"
  | "Desception" => some "Charisma"
  | "Diplomacy" => some "Charisma"
  | "Intimidation" => some "Charisma"
  | "Performance" => some "Charisma"
  | "Persuasion" => some "Charisma"
  | _ => none

/-- Embedding of `CharacterBuilder.recalculate_all` (lines 619-697). -/
def recalculate_all (b : CharacterBuilder) : CharacterBuilder :=
  let c := b.character
  let c := { c with ability_scores :=
      c.ability_scores.map (fun (kv : String × AbilityScore) => (kv.1, recalcAbility kv.2)) }
  let c := match b.chosen_profession with
    | none => c
    | some prof =>
        let end_mod := match alookup c.ability_scores "Endurance" with
          | some s => s.mod
          | none => 0
        let mx := prof.base_hp + end_mod
        let cur := if c.health.current > mx then mx
          else if c.health.current ≤ 0 then mx
          else c.health.current
        { c with health := { c.health with max := mx, current := cur } }
  let c := { c with skills := c.skills.map (fun (kv : String × SkillEntry) =>
      let entry := kv.2
      let entry := match skillAttribute kv.1 with
        | some attr =>
            match alookup c.ability_scores attr with
            | some s => { entry with mod := s.mod }
            | none => entry
        | none => entry
      (kv.1, { entry with total := entry.mod + entry.rank + entry.misc })) }
  let c := match alookup c.ability_scores "Might" with
    | some s => { c with attack_mods_melee := { c.attack_mods_melee with attr := s.mod } }
    | none => c
  let c := match alookup c.ability_scores "Agility" with
    | some s => { c with attack_mods_ranged := { c.attack_mods_ranged with attr := s.mod } }
    | none => c
  let c := { c with
    attack_mods_melee := { c.attack_mods_melee with
      total := c.attack_mods_melee.attr + c.attack_mods_melee.misc },
    attack_mods_ranged := { c.attack_mods_ranged with
      total := c.attack_mods_ranged.attr + c.attack_mods_ranged.misc } }
  let c := match alookup c.ability_scores "Agility" with
    | some s => { c with defense := { c.defense with agility := s.mod } }
    | none => c
  let shield := c.defense.shield.getD 0
  let c := { c with defense := { c.defense with
      total := some (c.defense.base + c.defense.agility + shield + c.defense.misc) } }
  let c := match alookup c.ability_scores "Agility" with
    | some s => { c with initiative := s.mod }
    | none => c
  let c := match alookup c.skills "Perception" with
    | some e => { c with passive_perception := { c.passive_perception with
        skill := e.total,
        total := c.passive_perception.base + e.total + c.passive_perception.misc } }
    | none => c
  let c := match alookup c.skills "Insight" with
    | some e => { c with passive_insight := { c.passive_insight with
        skill := e.total,
        total := c.passive_insight.base + e.total + c.passive_insight.misc } }
    | none => c
  let c := match alookup c.ability_scores "Endurance" with
    | some s =>
        let mx := max 1 (Int.fdiv s.total 2 * 2)
        { c with life_points := { max := mx, current := mx } }
    | none => c
  { b with character := c }

/-- Embedding of `CharacterBuilder.is_complete`. -/
def is_complete (b : CharacterBuilder) : Bool :=
  b.current_step = BuilderStep.COMPLETE && b.pending_choices.length = 0

/-! ## validate_character and its helpers (src/validation.py lines 216-772)

The character record handed to `validate_character` is a plain dict.  Its
heterogeneous values are modelled by small sum types:
`FieldVal` for the five required selection fields (a plain string, `None`,
or an enum member carrying a `value`), `AbilityVal` for one entry of the
`ability_scores` dict, `LevelVal` for `level`, `HealthVal` for `health`. -/

/-- A value stored under a required field key of the character dict. -/
inductive FieldVal where
  | vNone
  | vStr (s : String)
  | vEnum (name : String) (value : String)
deriving DecidableEq

/-- `_enum_to_value`: an object with a `value` attribute yields that value,
anything else is returned unchanged. -/
def enumToValue : FieldVal → FieldVal
  | .vEnum _ v => .vStr v
  | x => x

/-- The `field not in character or character.get(field) in (None, "")` test. -/
def fieldMissing : Option FieldVal → Bool
  | none => true
  | some .vNone => true
  | some (.vStr s) => s = ""
  | some (.vEnum _ _) => false

/-- Python truthiness of a required field's value. -/
def fieldTruthy : Option FieldVal → Bool
  | none => false
  | some .vNone => false
  | some (.vStr s) => s ≠ ""
  | some (.vEnum _ _) => true

/-- `str(value)` for a (post-normalization) field value; the enum case is
unreachable after normalization. -/
def fieldStr : FieldVal → String
  | .vNone => "None"
  | .vStr s => s
  | .vEnum n _ => n

/-- One value of the `ability_scores` dict: a nested dict (with optional
`total`/`roll` keys), an object with a `total` attribute, a bare int, or
anything else. -/
inductive AbilityVal where
  | aDict (total roll : Option Int)
  | aObj (total : Int)
  | aInt (n : Int)
  | aOther
deriving DecidableEq

/-- A score value collected for `validate_ability_scores`: an int or not. -/
inductive ScoreVal where
  | sInt (n : Int)
  | sOther
deriving DecidableEq

/-- `data.get("total", data.get("roll", 0)) if isinstance(data, dict) else data`. -/
def scoreOf : AbilityVal → ScoreVal
  | .aDict t r => .sInt (t.getD (r.getD 0))
  | .aObj _ => .sOther
  | .aInt n => .sInt n
  | .aOther => .sOther

/-- The `level` value of the character dict (an int or some other type). -/
inductive LevelVal where
  | lInt (n : Int)
  | lOther
deriving DecidableEq

/-- The `health` value of the character dict: a dict with an optional
`max` key, or some non-dict value. -/
inductive HealthVal where
  | hDict (max : Option Int)
  | hOther
deriving DecidableEq

/-- The character record handed to `validate_character`. -/
structure CharRecord where
  race : Option FieldVal := none
  ancestry : Option FieldVal := none
  profession : Option FieldVal := none
  primary_path : Option FieldVal := none
  background : Option FieldVal := none
  ability_scores : Option (List (String × AbilityVal)) := none
  level : Option LevelVal := none
  health : Option HealthVal := none
deriving DecidableEq

/-- Embedding of `CharacterValidator._get_ability_total`. -/
def get_ability_total (scores : List (String × AbilityVal)) (ability : String) : Int :=
  match alookup scores ability with
  | none => 0
  | some (.aDict t r) => t.getD (r.getD 0)
  | some (.aObj t) => t
  | some (.aInt n) => n
  | some .aOther => 0

/-- Embedding of `CharacterValidator.validate_race` (lines 317-328). -/
def CharacterValidator.validate_race (V : CharacterValidator) (race_id : String) :
    ValidationResult :=
  let result := ValidationResult.ok
  if race_id = "" then result.add_error "Race is required"
  else if race_id ∉ V.valid_race_ids then
    let r := result.add_error ("Unknown race: " ++ race_id)
    if V.valid_race_ids ≠ [] then
      r.add_warning ("Valid races: " ++ String.intercalate ", " V.valid_race_ids.mergeSort)
    else r
  else result

/-- Embedding of `CharacterValidator.validate_path` (lines 375-424). -/
def CharacterValidator.validate_path (V : CharacterValidator) (path_id : String)
    (ability_scores : Option (List (String × AbilityVal))) (is_primary : Bool) :
    ValidationResult :=
  let result := ValidationResult.ok
  if path_id = "" then result.add_error "Path is required"
  else if path_id ∉ V.valid_path_ids then result.add_error ("Unknown path: " ++ path_id)
  else
    let scoresTruthy : Bool := match ability_scores with
      | some l => !l.isEmpty
      | none => false
    match ability_scores, alookup V.path_prerequisites path_id with
    | some scores, some prereq =>
        if scoresTruthy then
          let primary_attr := prereq.primary_attribute
          let primary_min := prereq.primary_minimum.getD 15
          let secondary_attrs := prereq.secondary_attributes.getD []
          let secondary_min := prereq.secondary_minimum.getD 13
          let attrTruthy := match primary_attr with
            | some s => s ≠ ""
            | none => false
          let r1 :=
            match primary_attr with
            | some attr =>
                if is_primary && attrTruthy then
                  let score := get_ability_total scores attr
                  if score < primary_min then
                    result.add_error ("Path " ++ path_id ++ " requires " ++ attr ++ " " ++
                      toString primary_min ++ "+, you have " ++ toString score)
                  else result
                else result
            | none => result
          if secondary_attrs ≠ [] then
            let meets := secondary_attrs.any
              (fun attr => get_ability_total scores attr ≥ secondary_min)
            if ¬ meets then
              r1.add_error ("Path " ++ path_id ++ " requires " ++ toString secondary_min ++
                "+ in one of: " ++ String.intercalate ", " secondary_attrs)
            else r1
          else r1
        else result
    | _, _ => result

/-- The value-range loop of `validate_ability_scores` (one pass per entry,
in dict order). -/
def checkScoreRanges (r : ValidationResult) : List (String × ScoreVal) → ValidationResult
  | [] => r
  | (name, .sOther) :: rest =>
      checkScoreRanges (r.add_error (name ++ " must be an integer")) rest
  | (name, .sInt v) :: rest =>
      checkScoreRanges
        (if v < 1 then r.add_error (name ++ " cannot be less than 1 (got " ++ toString v ++ ")")
         else if v > 20 then r.add_error (name ++ " cannot exceed 20 (got " ++ toString v ++ ")")
         else if v < 3 then r.add_warning (name ++ " is unusually low (" ++ toString v ++ ")")
         else r) rest

/-- Embedding of `CharacterValidator._validate_point_draw` (lines 271-289).
A non-int score would raise a `TypeError` in Python; it is skipped here and
is unreachable from `validate_character` (which uses method `"manual"`). -/
def validate_point_draw (scores : List (String × ScoreVal)) : ValidationResult :=
  let step := fun (acc : ValidationResult × Int) (p : String × ScoreVal) =>
    match p.2 with
    | .sOther => acc
    | .sInt v =>
        if v < 8 then
          (acc.1.add_error ("Point buy: " ++ p.1 ++ " cannot be below 8 (got " ++
            toString v ++ ")"), acc.2)
        else if v > 16 then
          (acc.1.add_error ("Point buy: " ++ p.1 ++ " cannot exceed 16 (got " ++
            toString v ++ ")"), acc.2)
        else
          match POINT_BUY_COSTS.lookup v with
          | some cost => (acc.1, acc.2 + cost)
          | none => acc
  let acc := scores.foldl step (ValidationResult.ok, 0)
  if acc.2 > POINT_BUY_TOTAL then
    acc.1.add_error ("Point buy: spent " ++ toString acc.2 ++ " points (max " ++
      toString POINT_BUY_TOTAL ++ ")")
  else if acc.2 < POINT_BUY_TOTAL then
    acc.1.add_warning ("Point buy: only spent " ++ toString acc.2 ++ " of " ++
      toString POINT_BUY_TOTAL ++ " points")
  else acc.1

/-- The remove-from-remaining loop of `_validate_standard_array` (stops at
the first value that is not available; validity does not depend on the
processing order, only the first error message does). -/
def drawFromRemaining (r : ValidationResult) (remaining : List Int) :
    List ScoreVal → ValidationResult
  | [] => r
  | .sOther :: _ => r.add_error "Standard array values must be chosen from the array without reuse"
  | .sInt v :: rest =>
      if v ∈ remaining then drawFromRemaining r (remaining.erase v) rest
      else r.add_error "Standard array values must be chosen from the array without reuse"

/-- Embedding of `CharacterValidator._validate_standard_array` (lines 291-311). -/
def validate_standard_array (scores : List (String × ScoreVal)) : ValidationResult :=
  let result := ValidationResult.ok
  let values := scores.map Prod.snd
  if values.length ≠ 6 then
    result.add_error ("Standard array must assign exactly 6 scores, got " ++
      toString values.length)
  else
    drawFromRemaining result STANDARD_ARRAY values

/-- Embedding of `CharacterValidator.validate_ability_scores`
(lines 221-269).  The missing/extra messages interpolate Python sets, so
their text is abbreviated. -/
def validate_ability_scores (scores : List (String × ScoreVal)) (method : String) :
    ValidationResult :=
  let result := ValidationResult.ok
  let missing := ABILITY_NAMES.filter (fun n => ¬ akey scores n)
  let r1 := if missing ≠ [] then
      result.add_error ("Missing ability scores: " ++ String.intercalate ", " missing)
    else result
  let extra := (scores.map Prod.fst).filter (fun n => n ∉ ABILITY_NAMES)
  let r2 := if extra ≠ [] then
      r1.add_error ("Unknown ability scores: " ++ String.intercalate ", " extra)
    else r1
  let r3 := checkScoreRanges r2 scores
  if method = "point_buy" ∨ method = "point_draw" then
    r3.merge (validate_point_draw scores)
  else if method = "standard_array" then
    r3.merge (validate_standard_array scores)
  else if method = "quick_test" then
    if ¬ scores.all (fun p => p.2 = ScoreVal.sInt 12) then
      r3.add_warning "Quick test should have all 12s"
    else r3
  else r3

/-- `str(value).lower().replace(" ", "_")`, the id normalization applied to
the race and primary-path fields. -/
def normId (s : String) : String :=
  (s.toLower).replace " " "_"

/-- One iteration of the required-field loop of `validate_character`:
report a missing field, or overwrite the stored value with
`_enum_to_value` of itself. -/
def normStep (r : ValidationResult) (v : Option FieldVal) (fname : String) :
    ValidationResult × Option FieldVal :=
  if fieldMissing v then (r.add_error ("Missing required field: " ++ fname), v)
  else (r, v.map enumToValue)

/-- The required-field loop at the top of `validate_character`
(lines 723-729): report missing fields and replace each present enum value
by its `.value` — the one place the validator writes into its input. -/
def normalize_required (rec : CharRecord) : ValidationResult × CharRecord :=
  let s1 := normStep ValidationResult.ok rec.race "race"
  let s2 := normStep s1.1 rec.ancestry "ancestry"
  let s3 := normStep s2.1 rec.profession "profession"
  let s4 := normStep s3.1 rec.primary_path "primary_path"
  let s5 := normStep s4.1 rec.background "background"
  (s5.1,
   { rec with
     race := s1.2,
     ancestry := s2.2,
     profession := s3.2,
     primary_path := s4.2,
     background := s5.2 })

/-- Embedding of `CharacterValidator.validate_character` (lines 716-772).
The pair returned is (result, the record as observable after the call):
the required-field normalization mutates the caller's dict in place. -/
def CharacterValidator.validate_character (V : CharacterValidator) (character : CharRecord) :
    ValidationResult × CharRecord :=
  let s := normalize_required character
  let r := s.1
  let character := s.2
  let r := match character.ability_scores with
    | some abdict =>
        let scores := abdict.map (fun (p : String × AbilityVal) => (p.1, scoreOf p.2))
        r.merge (validate_ability_scores scores "manual")
    | none => r.add_error "Missing ability_scores"
  let r := match character.race with
    | some fv =>
        if fieldTruthy (some fv) then
          r.merge (V.validate_race (normId (fieldStr (enumToValue fv))))
        else r
    | none => r
  let r := match character.primary_path with
    | some fv =>
        if fieldTruthy (some fv) then
          r.merge (V.validate_path (normId (fieldStr (enumToValue fv)))
            character.ability_scores true)
        else r
    | none => r
  let r := match character.level with
    | none =>
        -- `character.get("level", 1)` defaults to the int 1, which passes
        r
    | some (.lInt n) =>
        if n < 1 then r.add_error ("Invalid level: " ++ toString n)
        else if n > 20 then
          r.add_warning ("Level " ++ toString n ++ " is above standard max (20)")
        else r
    | some .lOther => r.add_error "Invalid level"
  let r := match character.health with
    | none =>
        -- `character.get("health", {})` defaults to an empty dict: max 0
        r.add_error "Max HP must be at least 1 (got 0)"
    | some (.hDict mx) =>
        let max_hp := mx.getD 0
        if max_hp < 1 then
          r.add_error ("Max HP must be at least 1 (got " ++ toString max_hp ++ ")")
        else r
    | some .hOther => r
  (r, character)

/-! ## Concrete instances used as witnesses and counterexamples -/

/-- The six ability scores as initialized by the builder (total 10, all
components at their defaults). -/
def stdAbilities : List (String × AbilityScore) :=
  ABILITY_NAMES.map (fun n => (n, {}))

/-- A level-2 character with default ability scores and 12 max HP. -/
def charA : Character :=
  { level := 2
    ability_scores := stdAbilities
    health := { max := 12, current := 12 } }

/-- A manager holding `charA`, with no paths loaded and an empty validator
(exactly the state produced when the data directory has no files). -/
def mgrA : LevelUpManager := { character := some charA }

/-- A talent purchase that requests rank 2 of a talent currently at rank 0
(the rank-1 step is skipped). -/
def rageSkip : TalentChoice :=
  { talent_id := "rage"
    talent_name := "Rage"
    new_rank := 2
    points_spent := 2
    path_id := "primary" }

/-- A talent purchase with a non-increasing requested rank (guaranteed to
fail validation). -/
def invalidRankChoice : TalentChoice :=
  { talent_id := "rage"
    talent_name := "Rage"
    new_rank := 0
    points_spent := 0
    path_id := "primary" }

/-- Three 1-TP talent purchases, all outside the primary path: 3 TP total,
0 TP spent in the primary path. -/
def secondarySpend : List TalentChoice :=
  [{ talent_id := "t1", talent_name := "T1", new_rank := 1, points_spent := 1,
     path_id := "shadow" },
   { talent_id := "t2", talent_name := "T2", new_rank := 1, points_spent := 1,
     path_id := "shadow" },
   { talent_id := "t3", talent_name := "T3", new_rank := 1, points_spent := 1,
     path_id := "shadow" }]

/-- An Intellect score with modifier +3. -/
def intScore3 : AbilityScore :=
  { mod := 3, saving_throw := 3, total := 16, roll := 16, race := 0, misc := 0 }

/-- A path whose talent-points attribute is Intellect. -/
def mysticPath : PathData :=
  { id := "mystic", name := "Mystic", talent_points_attribute := "Intellect" }

/-- A character on the Mystic path with Intellect modifier +3. -/
def charC5 : Character :=
  { ability_scores := [("Intellect", intScore3)]
    primary_path := some (.pstr "Mystic") }

/-- A manager for the C5 witness. -/
def mgrC5 : LevelUpManager :=
  { character := some charC5
    paths := [("mystic", mysticPath)] }

/-- A character record whose `race` field holds an enum member. -/
def recC4 : CharRecord :=
  { race := some (.vEnum "Race.ELF" "elf")
    ancestry := some (.vStr "sylari")
    profession := some (.vStr "scholar")
    primary_path := some (.vStr "Mystic")
    background := some (.vStr "scholar") }

/-- A character record holding only plain strings. -/
def recPlain : CharRecord :=
  { race := some (.vStr "elf")
    ancestry := some (.vStr "sylari")
    profession := some (.vStr "scholar")
    primary_path := some (.vStr "mystic")
    background := some (.vStr "scholar")
    level := some (.lInt 1)
    health := some (.hDict (some 10)) }

/-- The manager state after the successful empty level-up on `mgrA`. -/
def mgrAfter : LevelUpManager :=
  match level_up mgrA [] [] none none with
  | some (_, m) => m
  | none => mgrA

/-- The validation result `level_up` computes for `invalidRankChoice`. -/
def rBad : ValidationResult :=
  (level_up_validation mgrA [invalidRankChoice] [] none).getD ValidationResult.ok

/-- A fresh builder with the six default ability scores. -/
def builder0 : CharacterBuilder :=
  { character := { ability_scores := stdAbilities } }

/-- A builder with one pending skill choice, an Athletics skill entry, and
one known language. -/
def builderB : CharacterBuilder :=
  { character :=
      { ability_scores := stdAbilities
        skills := [("Athletics", { trained := true, rank := 2 })]
        languages := ["Common"] }
    pending_choices :=
      [{ choice_type := "skill", count := 1, options := ["Athletics", "Stealth"],
         source := "Test" }] }

/-! ## Helper lemmas -/

theorem alookup_aupdate {α : Type} (f : α → α) (m : List (String × α)) (k key : String) :
    alookup (aupdate f m k) key = if key = k then (alookup m key).map f else alookup m key := by
  induction m with
  | nil => simp [alookup, aupdate]
  | cons hd tl ih =>
      obtain ⟨k1, v1⟩ := hd
      by_cases h1 : k1 = k
      · subst h1
        by_cases h2 : k1 = key
        · subst h2
          simp [alookup, aupdate]
        · simp [alookup, aupdate, h2, Ne.symm h2]
      · by_cases h2 : k1 = key
        · subst h2
          by_cases h3 : k1 = k
          · exact absurd h3 h1
          · simp [alookup, aupdate, h1, Ne.symm h1]
        · simp [alookup, aupdate, h1, h2, ih]

theorem aupdate_keys {α : Type} (f : α → α) (m : List (String × α)) (k : String) :
    (aupdate f m k).map Prod.fst = m.map Prod.fst := by
  induction m with
  | nil => simp [aupdate]
  | cons hd tl ih =>
      obtain ⟨k1, v1⟩ := hd
      by_cases h1 : k1 = k <;> simp [aupdate, h1, ih]

theorem merge_valid (r s : ValidationResult) :
    (r.merge s).valid = (r.valid && s.valid) := rfl

theorem add_error_valid (r : ValidationResult) (m : String) :
    (r.add_error m).valid = false := rfl

theorem add_warning_valid (r : ValidationResult) (m : String) :
    (r.add_warning m).valid = r.valid := rfl

/-- Python `//` by 2 is floor division: the quotient brackets the dividend. -/
theorem fdiv_two_bounds (x : Int) : 2 * Int.fdiv x 2 ≤ x ∧ x < 2 * Int.fdiv x 2 + 2 := by
  rw [Int.fdiv_eq_ediv x (by norm_num)]
  omega

/-! ## C5 — talent-point and advancement-point formulas -/

/-- C5: for every loaded character the computed talent points equal the
primary path's talent-points attribute modifier plus 5 (defaulting to 5
when no primary path resolves or the path names no attribute), and the
computed advancement points equal `max 2 (Intellect modifier)`, defaulting
to 2 when Intellect is absent. -/
theorem talent_and_advancement_point_formulas (mgr : LevelUpManager) (c : Character)
    (hc : mgr.character = some c) :
    (calculate_advancement_points mgr =
      match alookup c.ability_scores "Intellect" with
      | some s => max 2 s.mod
      | none => 2)
    ∧ (get_primary_path mgr = none → calculate_talent_points mgr = 5)
    ∧ (∀ p, get_primary_path mgr = some p → p.talent_points_attribute = "" →
        calculate_talent_points mgr = 5)
    ∧ (∀ p s, get_primary_path mgr = some p → p.talent_points_attribute ≠ "" →
        alookup c.ability_scores p.talent_points_attribute = some s →
        calculate_talent_points mgr = s.mod + 5) := by
  refine ⟨?_, ?_, ?_, ?_⟩
  · simp [calculate_advancement_points, hc]
  · intro hp
    simp [calculate_talent_points, hc, hp]
  · intro p hp hattr
    simp [calculate_talent_points, hc, hp, hattr]
  · intro p s hp hattr hlook
    simp [calculate_talent_points, hc, hp, hattr, hlook]

/-- Witness for C5 at a concrete manager: a primary path whose
talent-points attribute is Intellect with modifier 3 yields 8 talent
points, and the same +3 Intellect yields 3 advancement points. -/
theorem talent_and_advancement_point_formulas_witness :
    calculate_talent_points mgrC5 = 8 ∧ calculate_advancement_points mgrC5 = 3 := by
  have h := talent_and_advancement_point_formulas mgrC5 charC5 rfl
  constructor
  · exact h.2.2.2 mysticPath intScore3 (by decide) (by decide) (by decide)
  · have h1 := h.1
    simpa [charC5, alookup, intScore3] using h1

/-! ## C7 — ability-score invariant after recalculation -/

theorem recalcAbility_props (s0 : AbilityScore) :
    (recalcAbility s0).total = (recalcAbility s0).roll + (recalcAbility s0).race +
      (recalcAbility s0).misc ∧
    (recalcAbility s0).mod = Int.fdiv ((recalcAbility s0).total - 10) 2 ∧
    (recalcAbility s0).saving_throw = (recalcAbility s0).mod := by
  simp [recalcAbility]

theorem recalculate_stats_ability_scores (c : Character) :
    (recalculate_stats c).ability_scores =
      c.ability_scores.map (fun kv => (kv.1, recalcAbility kv.2)) := by
  unfold recalculate_stats
  dsimp only
  repeat' split
  all_goals rfl

set_option maxHeartbeats 2000000 in
theorem recalculate_all_ability_scores (b : CharacterBuilder) :
    (recalculate_all b).character.ability_scores =
      b.character.ability_scores.map (fun kv => (kv.1, recalcAbility kv.2)) := by
  unfold recalculate_all
  dsimp only
  repeat' split
  all_goals rfl

/-- C7: after `_recalculate_stats` (level-up manager) or `recalculate_all`
(builder), every ability score satisfies `total = roll + race + misc`,
`modifier = (total - 10) // 2` (floor division, pinned down by the bracket
`2·mod ≤ total - 10 < 2·mod + 2`, so it is the floor also for negative
totals), and `saving_throw = modifier`. -/
theorem recalculated_ability_invariant :
    (∀ (c : Character) (name : String) (s : AbilityScore),
        (name, s) ∈ (recalculate_stats c).ability_scores →
        s.total = s.roll + s.race + s.misc ∧ s.mod = Int.fdiv (s.total - 10) 2 ∧
          s.saving_throw = s.mod ∧
          2 * s.mod ≤ s.total - 10 ∧ s.total - 10 < 2 * s.mod + 2)
    ∧ (∀ (b : CharacterBuilder) (name : String) (s : AbilityScore),
        (name, s) ∈ (recalculate_all b).character.ability_scores →
        s.total = s.roll + s.race + s.misc ∧ s.mod = Int.fdiv (s.total - 10) 2 ∧
          s.saving_throw = s.mod ∧
          2 * s.mod ≤ s.total - 10 ∧ s.total - 10 < 2 * s.mod + 2) := by
  have main : ∀ (s0 : AbilityScore) (s : AbilityScore), s = recalcAbility s0 →
      s.total = s.roll + s.race + s.misc ∧ s.mod = Int.fdiv (s.total - 10) 2 ∧
        s.saving_throw = s.mod ∧
        2 * s.mod ≤ s.total - 10 ∧ s.total - 10 < 2 * s.mod + 2 := by
    intro s0 s hs
    subst hs
    obtain ⟨h1, h2, h3⟩ := recalcAbility_props s0
    refine ⟨h1, h2, h3, ?_, ?_⟩
    · have := (fdiv_two_bounds ((recalcAbility s0).total - 10)).1
      omega
    · have := (fdiv_two_bounds ((recalcAbility s0).total - 10)).2
      omega
  constructor
  · intro c name s hmem
    rw [recalculate_stats_ability_scores] at hmem
    obtain ⟨⟨n0, s0⟩, _, heq⟩ := List.mem_map.mp hmem
    exact main s0 s (by
      have := congrArg Prod.snd heq
      simpa using this.symm)
  · intro b name s hmem
    rw [recalculate_all_ability_scores] at hmem
    obtain ⟨⟨n0, s0⟩, _, heq⟩ := List.mem_map.mp hmem
    exact main s0 s (by
      have := congrArg Prod.snd heq
      simpa using this.symm)

/-- Witness for C7: the invariant, instantiated at the default score of
`charA` after `_recalculate_stats`. -/
theorem recalculated_ability_invariant_witness :
    (recalcAbility {}).total = (recalcAbility {}).roll + (recalcAbility {}).race +
      (recalcAbility {}).misc ∧
    (recalcAbility {}).mod = Int.fdiv ((recalcAbility {}).total - 10) 2 ∧
    (recalcAbility {}).saving_throw = (recalcAbility {}).mod ∧
    2 * (recalcAbility {}).mod ≤ (recalcAbility {}).total - 10 ∧
    (recalcAbility {}).total - 10 < 2 * (recalcAbility {}).mod + 2 :=
  recalculated_ability_invariant.1 charA "Might" (recalcAbility {}) (by decide)

/-! ## C6 — shape of a valid ability-increase choice -/

theorem checkIncreaseNames_valid (l : List (String × Int)) :
    ∀ r, (checkIncreaseNames r l).valid =
      (r.valid && l.all (fun p => decide (p.1 ∈ ABILITY_NAMES))) := by
  induction l with
  | nil => intro r; simp [checkIncreaseNames]
  | cons hd tl ih =>
      intro r
      obtain ⟨a, v⟩ := hd
      by_cases h : a ∈ ABILITY_NAMES
      · simp [checkIncreaseNames, h, ih]
      · simp [checkIncreaseNames, h, ih, ValidationResult.add_error]

/-- C6: at a level in {4, 8, 12, 16} an ability-increase choice validates
exactly when it is one recognized ability at +2, or two distinct recognized
abilities at +1 each (an empty choice is rejected); at any other level a
non-empty choice is rejected.  The `Nodup` hypothesis encodes that a Python
dict cannot repeat a key. -/
theorem validate_ability_increase_shape (inc : List (String × Int)) (lvl : Int)
    (hnd : (inc.map Prod.fst).Nodup) :
    (lvl ∈ ([4, 8, 12, 16] : List Int) →
      ((validate_ability_increase inc lvl).valid = true ↔
        (∃ a, inc = [(a, 2)] ∧ a ∈ ABILITY_NAMES) ∨
        (∃ a b, inc = [(a, 1), (b, 1)] ∧ a ≠ b ∧ a ∈ ABILITY_NAMES ∧ b ∈ ABILITY_NAMES)))
    ∧ (lvl ∉ ([4, 8, 12, 16] : List Int) → inc ≠ [] →
        (validate_ability_increase inc lvl).valid = false) := by
  constructor
  · intro hlvl
    match inc, hnd with
    | [], _ =>
        simp [validate_ability_increase, hlvl, ValidationResult.add_error]
    | [(a, v)], _ =>
        by_cases hv : v = 2 <;> by_cases ha : a ∈ ABILITY_NAMES <;>
          simp [validate_ability_increase, hlvl, checkIncreaseNames_valid,
            ValidationResult.add_error, ValidationResult.ok, hv, ha, List.headI]
    | (a, v) :: (b, w) :: [], hnd =>
        have hab : a ≠ b := by
          simp only [List.map_cons, List.map_nil, List.nodup_cons, List.mem_cons,
            List.mem_singleton] at hnd
          tauto
        have hval : (validate_ability_increase ((a, v) :: (b, w) :: []) lvl).valid =
            (decide (v + w = 2) && (decide (v = 1) && decide (w = 1)) &&
             (decide (a ∈ ABILITY_NAMES) && decide (b ∈ ABILITY_NAMES))) := by
          by_cases htot : v + w = 2 <;> by_cases hv : v = 1 <;> by_cases hw : w = 1 <;>
            simp [validate_ability_increase, hlvl, checkIncreaseNames_valid,
              ValidationResult.add_error, ValidationResult.ok, htot, hv, hw]
        rw [hval]
        constructor
        · intro h
          simp only [Bool.and_eq_true, decide_eq_true_eq] at h
          exact Or.inr ⟨a, b, by rw [h.1.2.1, h.1.2.2], hab, h.2.1, h.2.2⟩
        · rintro (⟨a1, heq, _⟩ | ⟨a1, b1, heq, hne, ha1, hb1⟩)
          · exact absurd heq (by simp)
          · have h1 : (a = a1 ∧ v = 1) ∧ b = b1 ∧ w = 1 := by simpa using heq
            obtain ⟨⟨ha2, hv2⟩, hb2, hw2⟩ := h1
            subst hv2
            subst hw2
            simp [ha2, hb2, ha1, hb1]
    | (a, v) :: (b, w) :: (c, u) :: rest, _ =>
        have hcount : ((a, v) :: (b, w) :: (c, u) :: rest).length ≠ 1 ∧
            ((a, v) :: (b, w) :: (c, u) :: rest).length ≠ 2 := by
          simp [List.length_cons]
        simp [validate_ability_increase, hlvl, checkIncreaseNames_valid,
          ValidationResult.add_error, ValidationResult.ok, hcount.1, hcount.2]
  · intro hlvl hinc
    simp [validate_ability_increase, hlvl, hinc, ValidationResult.add_error]

/-- Witness for C6: {Might: +2} validates at level 4. -/
theorem validate_ability_increase_shape_witness :
    (validate_ability_increase [("Might", 2)] 4).valid = true :=
  ((validate_ability_increase_shape [("Might", 2)] 4 (by decide)).1 (by decide)).mpr
    (Or.inl ⟨"Might", rfl, by decide⟩)

/-! ## C2 — rank sequencing in talent validation -/

/-- Counterexample to C2: a purchase requesting rank 2 of a talent the
character owns at rank 0 (skipping rank 1) passes the full level-up
validation pipeline of `level_up` — rank skipping is not rejected. -/
theorem skip_rank_passes_level_up_validation :
    (level_up_validation mgrA [rageSkip] [] none).map ValidationResult.valid = some true := by
  rfl

/-- C2 (amended): `validate_talent_choice` rejects a requested new rank
that is not strictly greater than the current rank; a rank that skips ahead
(new rank > current + 1) is not rejected by any rank-sequencing check. -/
theorem validate_talent_choice_rejects_nonincreasing (V : CharacterValidator)
    (talent_id : String) (new_rank current_rank : Int) (points_spent : Option Int)
    (h : new_rank ≤ current_rank) :
    (V.validate_talent_choice talent_id new_rank current_rank points_spent).valid = false := by
  unfold CharacterValidator.validate_talent_choice
  dsimp only
  by_cases hid : talent_id = ""
  · simp [hid, ValidationResult.add_error]
  · rw [if_neg hid]
    cases points_spent <;>
      simp only [apply_ite ValidationResult.valid, add_error_valid, add_warning_valid] <;>
      split_ifs <;> simp_all [ValidationResult.ok]

/-- Witness for the amended C2 at a concrete non-increasing request. -/
theorem validate_talent_choice_rejects_nonincreasing_witness :
    ((0 : Int) ≤ 0) ∧
      (CharacterValidator.validate_talent_choice {} "rage" 0 0 (some 0)).valid = false :=
  ⟨le_refl 0, validate_talent_choice_rejects_nonincreasing {} "rage" 0 0 (some 0) (le_refl 0)⟩

/-! ## C3 — the minimum primary-path spend is computed but not enforced -/

/-- C3 (code bug): `get_level_up_options` computes
`min_primary_path_points = min 4 tp = 4`, yet a batch spending 3 TP with 0
TP in the primary path passes `_validate_level_up_inputs` (which leaves the
validator's `min_primary_path_points` parameter at its default 0) and the
`level_up` call succeeds. -/
theorem level_up_min_primary_not_enforced :
    (get_level_up_options mgrA none).map LevelUpOptions.min_primary_path_points = some 4
    ∧ ((secondarySpend.filter (fun c => c.path_id = "primary")).map
        TalentChoice.points_spent).sum = 0
    ∧ (level_up_validation mgrA secondarySpend [] none).map ValidationResult.valid = some true
    ∧ (level_up mgrA secondarySpend [] none none).map Prod.fst = some true := by
  refine ⟨rfl, rfl, rfl, rfl⟩

/-! ## C1 and C10 — level-up failure atomicity and single-level advance -/

theorem get_level_up_options_default (mgr : LevelUpManager) (c : Character)
    (hc : mgr.character = some c) :
    ∃ o, get_level_up_options mgr none = some o ∧ o.new_level = c.level + 1 ∧
      o.current_level = c.level := by
  unfold get_level_up_options
  rw [hc]
  dsimp only
  rw [if_neg (by omega : ¬ c.level + 1 ≤ c.level)]
  exact ⟨_, rfl, rfl, rfl⟩

/-- C1: whenever the internal validation of a `level_up` call reports
failure, the call returns `False` and the Character Aggregate it holds is
exactly the one it held before — level, ability scores, skills, talents,
languages, proficiencies, features and HP included.  (All mutations of the
source happen strictly after the early `return False`.) -/
theorem level_up_invalid_leaves_character_unchanged (mgr : LevelUpManager)
    (c : Character) (tc : List TalentChoice) (ac : List AdvancementChoice)
    (ai : Option (List (String × Int))) (hp : Option Int) (r : ValidationResult)
    (hc : mgr.character = some c)
    (hv : level_up_validation mgr tc ac ai = some r)
    (hr : r.valid = false) :
    ∃ m2, level_up mgr tc ac ai hp = some (false, m2) ∧ m2.character = some c := by
  obtain ⟨o, ho, _, _⟩ := get_level_up_options_default mgr c hc
  have hro : r = validate_level_up_inputs mgr o tc ac ai := by
    unfold level_up_validation at hv
    rw [ho] at hv
    simpa using hv.symm
  unfold level_up
  rw [hc]
  dsimp only
  rw [ho]
  dsimp only
  rw [← hro, if_pos hr]
  exact ⟨_, rfl, rfl⟩

/-- Witness for C1: `invalidRankChoice` fails validation, `level_up`
returns `False`, and `charA` is untouched. -/
theorem level_up_invalid_leaves_character_unchanged_witness :
    ∃ m2, level_up mgrA [invalidRankChoice] [] none none = some (false, m2) ∧
      m2.character = some charA :=
  level_up_invalid_leaves_character_unchanged mgrA charA [invalidRankChoice] [] none
    none rBad rfl (by decide) (by decide)

theorem apply_talent_choice_level (c : Character) (x : TalentChoice) :
    (apply_talent_choice c x).level = c.level := by
  unfold apply_talent_choice
  split <;> rfl

theorem apply_advancement_choice_level (c : Character) (x : AdvancementChoice) :
    (apply_advancement_choice c x).level = c.level := by
  unfold apply_advancement_choice
  split_ifs <;> rfl

theorem foldl_preserves_level {β : Type} (f : Character → β → Character)
    (hf : ∀ c x, (f c x).level = c.level) (l : List β) (c : Character) :
    (l.foldl f c).level = c.level := by
  induction l generalizing c with
  | nil => rfl
  | cons hd tl ih => rw [List.foldl_cons, ih, hf]

theorem applyAbilityIncrease_level (c : Character) (inc : List (String × Int)) :
    (applyAbilityIncrease c inc).level = c.level := by
  unfold applyAbilityIncrease
  apply foldl_preserves_level
  intro c x
  dsimp only
  split <;> rfl

theorem apply_hp_increase_level (c : Character) (hp : Option Int) :
    (apply_hp_increase c hp).level = c.level := rfl

theorem recalculate_stats_level (c : Character) :
    (recalculate_stats c).level = c.level := by
  unfold recalculate_stats
  dsimp only
  repeat' split
  all_goals rfl

theorem apply_level_up_level (c : Character) (o : LevelUpOptions)
    (tc : List TalentChoice) (ac : List AdvancementChoice)
    (ai : Option (List (String × Int))) (hp : Option Int) :
    (apply_level_up c o tc ac ai hp).level = o.new_level := by
  unfold apply_level_up
  dsimp only
  rw [recalculate_stats_level]
  repeat' split
  all_goals
    simp [apply_hp_increase_level, applyAbilityIncrease_level,
      foldl_preserves_level apply_advancement_choice apply_advancement_choice_level,
      foldl_preserves_level apply_talent_choice apply_talent_choice_level]

/-- C10: `level_up` takes no target-level argument, always targets
`current level + 1` internally, and every successful call leaves the
character at exactly one level above where it started — multi-level
advancement can only happen as repeated single-level calls. -/
theorem level_up_increments_level_by_one (mgr : LevelUpManager)
    (tc : List TalentChoice) (ac : List AdvancementChoice)
    (ai : Option (List (String × Int))) (hp : Option Int) (m2 : LevelUpManager)
    (h : level_up mgr tc ac ai hp = some (true, m2)) :
    ∃ c c2, mgr.character = some c ∧ m2.character = some c2 ∧ c2.level = c.level + 1 := by
  cases hc : mgr.character with
  | none =>
      unfold level_up at h
      rw [hc] at h
      simp at h
  | some c =>
      obtain ⟨o, ho, hnew, _⟩ := get_level_up_options_default mgr c hc
      unfold level_up at h
      rw [hc] at h
      dsimp only at h
      rw [ho] at h
      dsimp only at h
      by_cases hv : (validate_level_up_inputs mgr o tc ac ai).valid = false
      · rw [if_pos hv] at h
        simp at h
      · rw [if_neg hv] at h
        have hm2 : m2 = { mgr with
            last_validation := some (validate_level_up_inputs mgr o tc ac ai),
            character := some (apply_level_up c o tc ac ai hp) } := by
          have := Option.some.inj h
          exact (Prod.mk.injEq _ _ _ _ ▸ this).2.symm ▸ rfl
        refine ⟨c, apply_level_up c o tc ac ai hp, rfl, ?_, ?_⟩
        · rw [hm2]
        · rw [apply_level_up_level, hnew]

/-- Witness for C10: the empty level-up on `mgrA` succeeds and moves the
character from level 2 to level 3. -/
theorem level_up_increments_level_by_one_witness :
    ∃ c c2, mgrA.character = some c ∧
      (mgrAfter.character : Option Character) = some c2 ∧ c2.level = c.level + 1 :=
  level_up_increments_level_by_one mgrA [] [] none none mgrAfter (by decide)

/-! ## C4 — validate_character mutates enum-valued required fields -/

/-- Counterexample to C4: passing a record whose `race` field holds an enum
member, `validate_character` hands back a record that differs from the one
passed in — the required-field loop overwrote `race` with the enum's
`.value` string.  The Validator is not mutation-free. -/
theorem validate_character_mutates_enum_fields :
    (CharacterValidator.validate_character {} recC4).2 ≠ recC4 := by decide

/-- Whether a stored required-field value is an enum member. -/
def hasEnumVal : Option FieldVal → Bool
  | some (.vEnum _ _) => true
  | _ => false

theorem normStep_preserves (r : ValidationResult) (v : Option FieldVal) (fname : String)
    (h : hasEnumVal v = false) : (normStep r v fname).2 = v := by
  unfold normStep
  split
  · rfl
  · cases v with
    | none => rfl
    | some fv => cases fv <;> simp_all [hasEnumVal, Option.map, enumToValue]

/-- C4 (amended): `validate_character` leaves its input unchanged whenever
none of the five required fields holds an enum member (in particular for
any record of plain strings); when a required field holds an enum member it
is replaced in place by the enum's `.value`.  All other validator entry
points take their inputs by value and return only a `ValidationResult`. -/
theorem validate_character_preserves_plain_records (V : CharacterValidator)
    (rec : CharRecord)
    (h1 : hasEnumVal rec.race = false) (h2 : hasEnumVal rec.ancestry = false)
    (h3 : hasEnumVal rec.profession = false) (h4 : hasEnumVal rec.primary_path = false)
    (h5 : hasEnumVal rec.background = false) :
    (V.validate_character rec).2 = rec := by
  have hsnd : (V.validate_character rec).2 = (normalize_required rec).2 := by
    unfold CharacterValidator.validate_character
    dsimp only
  rw [hsnd]
  unfold normalize_required
  dsimp only
  rw [normStep_preserves _ _ _ h1, normStep_preserves _ _ _ h2,
    normStep_preserves _ _ _ h3, normStep_preserves _ _ _ h4,
    normStep_preserves _ _ _ h5]

/-- Witness for the amended C4: the all-strings record is returned intact. -/
theorem validate_character_preserves_plain_records_witness :
    (CharacterValidator.validate_character {} recPlain).2 = recPlain :=
  validate_character_preserves_plain_records {} recPlain (by decide) (by decide)
    (by decide) (by decide) (by decide)

/-! ## C9 — set_ability_scores silently skips unknown names -/

theorem alookup_eq_none_of_not_mem {α : Type} (l : List (String × α)) (k : String)
    (h : k ∉ l.map Prod.fst) : alookup l k = none := by
  induction l with
  | nil => rfl
  | cons hd tl ih =>
      obtain ⟨k1, v1⟩ := hd
      simp only [List.map_cons, List.mem_cons] at h
      push_neg at h
      have h1 : k1 ≠ k := Ne.symm h.1
      simp [alookup, h1, ih h.2]

theorem alookup_cons {α : Type} (k1 : String) (v1 : α) (tl : List (String × α))
    (key : String) :
    alookup ((k1, v1) :: tl) key = if k1 = key then some v1 else alookup tl key := rfl

/-- Counterexample to C9: passing the unrecognized ability name "Luck" does
not fail — `set_ability_scores` has no failure path at all — and the
builder still advances to the Race step with the scores untouched. -/
theorem set_ability_scores_ignores_unknown_names :
    (set_ability_scores builder0 [("Luck", 15)]).current_step = BuilderStep.RACE
    ∧ (set_ability_scores builder0 [("Luck", 15)]).character = builder0.character := by
  exact ⟨rfl, by decide⟩

theorem alookup_foldl_setScoreStep (scores : List (String × Int)) :
    (scores.map Prod.fst).Nodup → ∀ (ch : Character) (name : String),
    alookup (scores.foldl setScoreStep ch).ability_scores name =
      (match alookup ch.ability_scores name, alookup scores name with
       | some s, some v => some (recalcAbility { s with roll := v })
       | some s, none => some s
       | none, _ => none) := by
  induction scores with
  | nil =>
      intro _ ch name
      show alookup ch.ability_scores name = _
      cases alookup ch.ability_scores name <;> rfl
  | cons hd tl ih =>
      intro hnd ch name
      obtain ⟨k, v⟩ := hd
      simp only [List.map_cons, List.nodup_cons] at hnd
      rw [List.foldl_cons, ih hnd.2 (setScoreStep ch (k, v)) name]
      by_cases hname : k = name
      · subst hname
        have htl : alookup tl k = none := alookup_eq_none_of_not_mem tl k hnd.1
        rw [alookup_cons, if_pos rfl, htl]
        unfold setScoreStep akey
        cases hs : alookup ch.ability_scores k with
        | none => simp [hs]
        | some s => simp [hs, alookup_aupdate]
      · rw [alookup_cons, if_neg hname]
        have hname2 : name ≠ k := fun hh => hname hh.symm
        unfold setScoreStep akey
        cases hs : alookup ch.ability_scores k with
        | none => simp [hs]
        | some s => simp [hs, alookup_aupdate, hname2]

/-- C9 (amended): `set_ability_scores` never fails; it always advances the
builder to the Race step, updates each recognized ability name by storing
the given value as the base roll and recomputing total/modifier/saving
throw from the current race and misc components, and silently ignores
unrecognized names (the score dict keeps exactly its previous keys). -/
theorem set_ability_scores_behavior (b : CharacterBuilder)
    (scores : List (String × Int)) (hnd : (scores.map Prod.fst).Nodup) :
    (set_ability_scores b scores).current_step = BuilderStep.RACE
    ∧ ∀ name, alookup (set_ability_scores b scores).character.ability_scores name =
        (match alookup b.character.ability_scores name, alookup scores name with
         | some s, some v => some (recalcAbility { s with roll := v })
         | some s, none => some s
         | none, _ => none) := by
  refine ⟨rfl, fun name => ?_⟩
  unfold set_ability_scores
  exact alookup_foldl_setScoreStep scores hnd b.character name

/-- Witness for the amended C9: setting Might to 15 on a fresh builder
advances to Race and stores roll 15 with total 15, modifier 2. -/
theorem set_ability_scores_behavior_witness :
    (set_ability_scores builder0 [("Might", 15)]).current_step = BuilderStep.RACE
    ∧ alookup (set_ability_scores builder0 [("Might", 15)]).character.ability_scores
        "Might" = some (recalcAbility { ({} : AbilityScore) with roll := 15 }) := by
  have h := set_ability_scores_behavior builder0 [("Might", 15)] (by decide)
  exact ⟨h.1, (h.2 "Might").trans (by decide)⟩

/-! ## C8 — resolve_choice contract -/

theorem eraseFirst_append_middle (c : PendingChoice) (l1 : List PendingChoice) :
    ∀ l2, (∀ x ∈ l1, x ≠ c) → eraseFirst (l1 ++ c :: l2) c = l1 ++ l2 := by
  induction l1 with
  | nil => intro l2 _; simp [eraseFirst]
  | cons hd tl ih =>
      intro l2 h
      have hhd : hd ≠ c := h hd (by simp)
      simp only [List.cons_append, eraseFirst, if_neg hhd]
      exact congrArg (List.cons hd) (ih l2 (fun x hx => h x (by simp [hx])))

theorem trainSkillStep_lookup (sk : List (String × SkillEntry)) (s name : String)
    (e : SkillEntry) (h : alookup sk name = some e) :
    ∃ e2, alookup (trainSkillStep sk s) name = some e2 ∧
      (e.rank ≠ 0 → e2.rank = e.rank) ∧ (e.trained = true → e2.trained = true) := by
  unfold trainSkillStep akey
  by_cases hname : name = s
  · subst hname
    rw [h]
    simp only [Option.isSome_some, if_true, alookup_aupdate, if_pos rfl, h, Option.map_some]
    exact ⟨_, rfl, fun hr => by simp [hr], fun _ => rfl⟩
  · cases hs : alookup sk s with
    | none =>
        simp only [hs, Option.isSome_none, Bool.false_eq_true, if_false]
        exact ⟨e, h, fun _ => rfl, fun ht => ht⟩
    | some e0 =>
        simp only [hs, Option.isSome_some, if_true, alookup_aupdate, if_neg hname]
        exact ⟨e, h, fun _ => rfl, fun ht => ht⟩

theorem trainSkills_lookup (sels : List String) :
    ∀ (sk : List (String × SkillEntry)) (name : String) (e : SkillEntry),
      alookup sk name = some e →
      ∃ e2, alookup (trainSkills sk sels) name = some e2 ∧
        (e.rank ≠ 0 → e2.rank = e.rank) ∧ (e.trained = true → e2.trained = true) := by
  induction sels with
  | nil => exact fun sk name e h => ⟨e, h, fun _ => rfl, fun ht => ht⟩
  | cons s rest ih =>
      intro sk name e h
      obtain ⟨e1, h1, hr1, ht1⟩ := trainSkillStep_lookup sk s name e h
      obtain ⟨e2, h2, hr2, ht2⟩ := ih (trainSkillStep sk s) name e1 h1
      refine ⟨e2, ?_, ?_, ?_⟩
      · simpa [trainSkills, List.foldl_cons] using h2
      · intro hr
        have ha := hr1 hr
        have hb := hr2 (by rw [ha]; exact hr)
        rw [hb, ha]
      · intro ht
        exact ht2 (ht1 ht)

theorem trainSkillStep_keys (sk : List (String × SkillEntry)) (s : String) :
    (trainSkillStep sk s).map Prod.fst = sk.map Prod.fst := by
  unfold trainSkillStep
  split <;> simp [aupdate_keys]

theorem trainSkills_keys (sels : List String) :
    ∀ sk, (trainSkills sk sels).map Prod.fst = sk.map Prod.fst := by
  induction sels with
  | nil => exact fun _ => rfl
  | cons s rest ih =>
      intro sk
      have hstep : trainSkills sk (s :: rest) = trainSkills (trainSkillStep sk s) rest := by
        simp [trainSkills, List.foldl_cons]
      rw [hstep, ih, trainSkillStep_keys]

theorem addDistinctStep_nodup (l : List String) (x : String) (h : l.Nodup) :
    (addDistinctStep l x).Nodup := by
  by_cases hx : x ∈ l
  · simpa [addDistinctStep, hx] using h
  · simp [addDistinctStep, hx, List.nodup_append, h]

theorem addDistinct_nodup (sels : List String) :
    ∀ l, l.Nodup → (addDistinct l sels).Nodup := by
  induction sels with
  | nil => exact fun _ h => h
  | cons s rest ih =>
      intro l h
      have hstep : addDistinct l (s :: rest) = addDistinct (addDistinctStep l s) rest := by
        simp [addDistinct, List.foldl_cons]
      rw [hstep]
      exact ih _ (addDistinctStep_nodup l s h)

theorem adjStep_fields (d : Int) (c : Character) (s : String) :
    (adjStep d c s).skills = c.skills ∧ (adjStep d c s).languages = c.languages := by
  unfold adjStep recalculate_modifier
  dsimp only
  repeat' split
  all_goals exact ⟨rfl, rfl⟩

theorem adjustAbilities_fields (sels : List String) (d : Int) :
    ∀ c, (adjustAbilities c sels d).skills = c.skills ∧
      (adjustAbilities c sels d).languages = c.languages := by
  induction sels with
  | nil => exact fun _ => ⟨rfl, rfl⟩
  | cons s rest ih =>
      intro c
      have hstep : adjustAbilities c (s :: rest) d =
          adjustAbilities (adjStep d c s) rest d := by
        simp [adjustAbilities, List.foldl_cons]
      rw [hstep]
      obtain ⟨h1, h2⟩ := ih (adjStep d c s)
      obtain ⟨h3, h4⟩ := adjStep_fields d c s
      exact ⟨h1.trans h3, h2.trans h4⟩

theorem applyPersonalityEntry_fields (c : Character) (slot : String)
    (e : PersonalityEntry) :
    (applyPersonalityEntry c slot e).skills = c.skills ∧
      (applyPersonalityEntry c slot e).languages = c.languages := by
  unfold applyPersonalityEntry
  split_ifs <;> exact ⟨rfl, rfl⟩

/-- The three data conjuncts of the C8 contract, for a character whose
skills and languages are unchanged. -/
theorem spec_of_unchanged (bc ch : Character)
    (hs : ch.skills = bc.skills) (hl : ch.languages = bc.languages) :
    (∀ name e, alookup bc.skills name = some e →
        ∃ e2, alookup ch.skills name = some e2 ∧ (e.rank ≠ 0 → e2.rank = e.rank) ∧
          (e.trained = true → e2.trained = true))
    ∧ (bc.languages.Nodup → ch.languages.Nodup)
    ∧ ch.skills.map Prod.fst = bc.skills.map Prod.fst :=
  ⟨fun name e he => ⟨e, by rw [hs]; exact he, fun _ => rfl, fun ht => ht⟩,
    fun h => by rw [hl]; exact h, by rw [hs]⟩

theorem applyChoiceEffect_spec (b : CharacterBuilder) (ct : String) (sels : List String)
    (ch : Character) (pending : List PendingChoice)
    (h : applyChoiceEffect b ct sels = some (ch, pending)) :
    (∃ extra, pending = b.pending_choices ++ extra ∧
      (ct ≠ "human_ability_mode" → extra = []))
    ∧ (∀ name e, alookup b.character.skills name = some e →
        ∃ e2, alookup ch.skills name = some e2 ∧ (e.rank ≠ 0 → e2.rank = e.rank) ∧
          (e.trained = true → e2.trained = true))
    ∧ (b.character.languages.Nodup → ch.languages.Nodup)
    ∧ ch.skills.map Prod.fst = b.character.skills.map Prod.fst := by
  unfold applyChoiceEffect at h
  by_cases h1 : ct = "skill"
  · rw [if_pos h1] at h
    simp only [Option.some.injEq, Prod.mk.injEq] at h
    obtain ⟨hch, hpend⟩ := h
    subst hch
    refine ⟨⟨[], by simp [hpend], fun _ => rfl⟩, ?_, fun hn => hn, ?_⟩
    · intro name e he
      exact trainSkills_lookup sels b.character.skills name e he
    · exact trainSkills_keys sels b.character.skills
  rw [if_neg h1] at h
  by_cases h2 : ct = "language"
  · rw [if_pos h2] at h
    simp only [Option.some.injEq, Prod.mk.injEq] at h
    obtain ⟨hch, hpend⟩ := h
    subst hch
    exact ⟨⟨[], by simp [hpend], fun _ => rfl⟩,
      fun name e he => ⟨e, he, fun _ => rfl, fun ht => ht⟩,
      fun hn => addDistinct_nodup sels b.character.languages hn, rfl⟩
  rw [if_neg h2] at h
  by_cases h3 : ct = "tool"
  · rw [if_pos h3] at h
    simp only [Option.some.injEq, Prod.mk.injEq] at h
    obtain ⟨hch, hpend⟩ := h
    subst hch
    exact ⟨⟨[], by simp [hpend], fun _ => rfl⟩,
      fun name e he => ⟨e, he, fun _ => rfl, fun ht => ht⟩, fun hn => hn, rfl⟩
  rw [if_neg h3] at h
  by_cases h4 : ct = "ability_bonus"
  · rw [if_pos h4] at h
    simp only [Option.some.injEq, Prod.mk.injEq] at h
    obtain ⟨hch, hpend⟩ := h
    subst hch
    obtain ⟨hs, hl⟩ := adjustAbilities_fields sels 1 b.character
    exact ⟨⟨[], by simp [hpend], fun _ => rfl⟩, (spec_of_unchanged _ _ hs hl).1,
      (spec_of_unchanged _ _ hs hl).2.1, (spec_of_unchanged _ _ hs hl).2.2⟩
  rw [if_neg h4] at h
  by_cases h5 : ct = "human_ability_mode"
  · rw [if_pos h5] at h
    cases sels with
    | nil => exact absurd h (by simp)
    | cons sel rest =>
        dsimp only at h
        by_cases hplus : strContains sel "+2"
        · rw [if_pos hplus] at h
          simp only [Option.some.injEq, Prod.mk.injEq] at h
          obtain ⟨hch, hpend⟩ := h
          subst hch
          exact ⟨⟨_, hpend.symm, fun hne => absurd h5 hne⟩,
            fun name e he => ⟨e, he, fun _ => rfl, fun ht => ht⟩, fun hn => hn, rfl⟩
        · rw [if_neg hplus] at h
          simp only [Option.some.injEq, Prod.mk.injEq] at h
          obtain ⟨hch, hpend⟩ := h
          subst hch
          exact ⟨⟨_, hpend.symm, fun hne => absurd h5 hne⟩,
            fun name e he => ⟨e, he, fun _ => rfl, fun ht => ht⟩, fun hn => hn, rfl⟩
  rw [if_neg h5] at h
  by_cases h6 : ct = "ability_bonus_plus2"
  · rw [if_pos h6] at h
    simp only [Option.some.injEq, Prod.mk.injEq] at h
    obtain ⟨hch, hpend⟩ := h
    subst hch
    obtain ⟨hs, hl⟩ := adjustAbilities_fields sels 2 b.character
    exact ⟨⟨[], by simp [hpend], fun _ => rfl⟩, (spec_of_unchanged _ _ hs hl).1,
      (spec_of_unchanged _ _ hs hl).2.1, (spec_of_unchanged _ _ hs hl).2.2⟩
  rw [if_neg h6] at h
  by_cases h7 : ct = "ability_penalty"
  · rw [if_pos h7] at h
    simp only [Option.some.injEq, Prod.mk.injEq] at h
    obtain ⟨hch, hpend⟩ := h
    subst hch
    obtain ⟨hs, hl⟩ := adjustAbilities_fields sels (-1) b.character
    exact ⟨⟨[], by simp [hpend], fun _ => rfl⟩, (spec_of_unchanged _ _ hs hl).1,
      (spec_of_unchanged _ _ hs hl).2.1, (spec_of_unchanged _ _ hs hl).2.2⟩
  rw [if_neg h7] at h
  by_cases h8 : ct.startsWith "personality_" = true
  · rw [if_pos h8] at h
    cases hbg : b.chosen_background with
    | none =>
        rw [hbg] at h
        simp only [Option.some.injEq, Prod.mk.injEq] at h
        obtain ⟨hch, hpend⟩ := h
        subst hch
        exact ⟨⟨[], by simp [hpend], fun _ => rfl⟩,
          fun name e he => ⟨e, he, fun _ => rfl, fun ht => ht⟩, fun hn => hn, rfl⟩
    | some bg =>
        rw [hbg] at h
        dsimp only at h
        cases htab : bg.personality_tables with
        | none =>
            rw [htab] at h
            simp only [Option.some.injEq, Prod.mk.injEq] at h
            obtain ⟨hch, hpend⟩ := h
            subst hch
            exact ⟨⟨[], by simp [hpend], fun _ => rfl⟩,
              fun name e he => ⟨e, he, fun _ => rfl, fun ht => ht⟩, fun hn => hn, rfl⟩
        | some tables =>
            rw [htab] at h
            dsimp only at h
            cases sels with
            | nil => exact absurd h (by simp)
            | cons sel rest =>
                dsimp only at h
                cases hparse : parseRollNum sel with
                | none =>
                    rw [hparse] at h
                    exact absurd h (by simp)
                | some n =>
                    rw [hparse] at h
                    dsimp only at h
                    cases hfind : (tableFor tables ct).find? (fun e => e.roll = n) with
                    | none =>
                        rw [hfind] at h
                        simp only [Option.some.injEq, Prod.mk.injEq] at h
                        obtain ⟨hch, hpend⟩ := h
                        subst hch
                        exact ⟨⟨[], by simp [hpend], fun _ => rfl⟩,
                          fun name e he => ⟨e, he, fun _ => rfl, fun ht => ht⟩,
                          fun hn => hn, rfl⟩
                    | some entry =>
                        rw [hfind] at h
                        simp only [Option.some.injEq, Prod.mk.injEq] at h
                        obtain ⟨hch, hpend⟩ := h
                        subst hch
                        obtain ⟨hs, hl⟩ := applyPersonalityEntry_fields b.character ct entry
                        exact ⟨⟨[], by simp [hpend], fun _ => rfl⟩,
                          (spec_of_unchanged _ _ hs hl).1,
                          (spec_of_unchanged _ _ hs hl).2.1,
                          (spec_of_unchanged _ _ hs hl).2.2⟩
  · rw [if_neg h8] at h
    simp only [Option.some.injEq, Prod.mk.injEq] at h
    obtain ⟨hch, hpend⟩ := h
    subst hch
    exact ⟨⟨[], by simp [hpend], fun _ => rfl⟩,
      fun name e he => ⟨e, he, fun _ => rfl, fun ht => ht⟩, fun hn => hn, rfl⟩

/-- C8: the `resolve_choice` contract.  The call fails when no pending
choice matches the type (and source, when given), when the selection count
differs from the choice's `count`, or when a selection is outside the
choice's options.  On success exactly one entry — the first matching one —
is removed from the queue (the `human_ability_mode` branch additionally
appends its follow-up choices); the skill dict keeps exactly its keys, a
trained skill's nonzero rank is never reset or re-granted and its trained
flag is never cleared, and no duplicate language entries are created. -/
theorem resolve_choice_contract (b : CharacterBuilder) (ct : String)
    (sels : List String) (src : Option String) :
    (b.pending_choices.find? (choiceMatches ct src) = none →
      resolve_choice b ct sels src = none)
    ∧ (∀ chx, b.pending_choices.find? (choiceMatches ct src) = some chx →
        (sels.length : Int) ≠ chx.count → resolve_choice b ct sels src = none)
    ∧ (∀ chx, b.pending_choices.find? (choiceMatches ct src) = some chx →
        (∃ s ∈ sels, s ∉ chx.options) → resolve_choice b ct sels src = none)
    ∧ (∀ b2, resolve_choice b ct sels src = some b2 →
        (∃ chx l1 l2 extra,
          b.pending_choices.find? (choiceMatches ct src) = some chx ∧
          b.pending_choices = l1 ++ chx :: l2 ∧
          (∀ x ∈ l1, choiceMatches ct src x = false) ∧
          b2.pending_choices = l1 ++ l2 ++ extra ∧
          (ct ≠ "human_ability_mode" → extra = []))
        ∧ (∀ name e, alookup b.character.skills name = some e →
            ∃ e2, alookup b2.character.skills name = some e2 ∧
              (e.rank ≠ 0 → e2.rank = e.rank) ∧ (e.trained = true → e2.trained = true))
        ∧ (b.character.languages.Nodup → b2.character.languages.Nodup)
        ∧ b2.character.skills.map Prod.fst = b.character.skills.map Prod.fst) := by
  refine ⟨?_, ?_, ?_, ?_⟩
  · intro hfind
    unfold resolve_choice
    rw [hfind]
  · intro chx hfind hcount
    unfold resolve_choice
    rw [hfind]
    dsimp only
    rw [if_pos hcount]
  · intro chx hfind hbad
    unfold resolve_choice
    rw [hfind]
    dsimp only
    by_cases hcount : (sels.length : Int) ≠ chx.count
    · rw [if_pos hcount]
    · rw [if_neg hcount]
      have hany : sels.any (fun sel => sel ∉ chx.options) = true := by
        obtain ⟨s, hs, hnot⟩ := hbad
        exact List.any_eq_true.mpr ⟨s, hs, by simp [hnot]⟩
      rw [if_pos hany]
  · intro b2 hres
    unfold resolve_choice at hres
    cases hfind : b.pending_choices.find? (choiceMatches ct src) with
    | none =>
        rw [hfind] at hres
        exact absurd hres (by simp)
    | some chx =>
        rw [hfind] at hres
        dsimp only at hres
        by_cases hcount : (sels.length : Int) ≠ chx.count
        · rw [if_pos hcount] at hres
          exact absurd hres (by simp)
        · rw [if_neg hcount] at hres
          by_cases hany : sels.any (fun sel => sel ∉ chx.options) = true
          · rw [if_pos hany] at hres
            exact absurd hres (by simp)
          · rw [if_neg hany] at hres
            cases happ : applyChoiceEffect b ct sels with
            | none =>
                rw [happ] at hres
                exact absurd hres (by simp)
            | some pr =>
                obtain ⟨ch, pending⟩ := pr
                rw [happ] at hres
                dsimp only at hres
                have hb2 : b2 = { b with
                    character := ch,
                    pending_choices := eraseFirst pending chx } := (Option.some.inj hres).symm
                obtain ⟨⟨extra, hpend, hextra⟩, hskills, hlang, hkeys⟩ :=
                  applyChoiceEffect_spec b ct sels ch pending happ
                obtain ⟨hp, l1, l2, hdecomp, hl1⟩ := List.find?_eq_some.mp hfind
                have hmatches : ∀ x ∈ l1, choiceMatches ct src x = false := by
                  intro x hx
                  have := hl1 x hx
                  simpa using this
                have hne : ∀ x ∈ l1, x ≠ chx := by
                  intro x hx heq
                  have hx2 := hmatches x hx
                  rw [heq, hp] at hx2
                  exact Bool.true_eq_false.mp hx2
                have herase : eraseFirst pending chx = l1 ++ l2 ++ extra := by
                  rw [hpend, hdecomp]
                  have hassoc : (l1 ++ chx :: l2) ++ extra = l1 ++ chx :: (l2 ++ extra) := by
                    simp [List.append_assoc]
                  rw [hassoc, eraseFirst_append_middle chx l1 (l2 ++ extra) hne,
                    ← List.append_assoc]
                subst hb2
                exact ⟨⟨chx, l1, l2, extra, rfl, hdecomp, hmatches, herase, hextra⟩,
                  hskills, hlang, hkeys⟩

/-- Witness for C8: on `builderB` (one pending skill choice requiring one
selection) a call with zero selections fails. -/
theorem resolve_choice_contract_witness :
    resolve_choice builderB "skill" [] none = none :=
  (resolve_choice_contract builderB "skill" [] none).2.1
    { choice_type := "skill", count := 1, options := ["Athletics", "Stealth"],
      source := "Test" }
    (by decide) (by decide)

end RowChar
